import Mathlib

/-!
# Verification of `src/src/write.ts` (KTX2-Parse)

Shallow embedding of the KTX 2.0 serializer `write` from `src/src/write.ts`.
Byte buffers (`ArrayBuffer`/`Uint8Array`) are modelled as `List Nat`, one
element per byte; multi-byte integers are written little-endian exactly as the
`DataView` calls in the source do, reducing the value modulo 2^(8·width).
JavaScript strings are modelled as lists of Unicode code points; the JS `>`
string comparison (UTF-16 code-unit order) and UTF-8 encoding are modelled
separately since they do not agree on supplementary-plane characters.

Helper modules of the repository that are not under `src/` (`util.ts`,
`constants.ts`, `constants-internal.ts`, `container.ts`) are modelled from the
spec; each such definition carries a doc comment starting with
`Modelled from the spec:`.
-/

namespace KTX2

/-- Little-endian byte encoding of `n` into `k` bytes. Models a `DataView`
`setUint16/setUint32/setBigUint64` write, which stores `n mod 2^(8k)`. -/
def toLE : Nat → Nat → List Nat
  | 0, _ => []
  | k + 1, n => n % 256 :: toLE k (n / 256)

/-- 2-byte little-endian write (`DataView.setUint16(…, true)`). -/
def u16LE (n : Nat) : List Nat := toLE 2 n

/-- 4-byte little-endian write (`DataView.setUint32(…, true)` /
one element of a platform-little-endian `Uint32Array`). -/
def u32LE (n : Nat) : List Nat := toLE 4 n

/-- 8-byte little-endian write (`DataView.setBigUint64(…, true)`). -/
def u64LE (n : Nat) : List Nat := toLE 8 n

/-- Little-endian value of a byte list (first byte least significant). -/
def readLE : List Nat → Nat
  | [] => 0
  | b :: bs => b + 256 * readLE bs

/-- Read the `n`-byte little-endian integer stored at byte position `pos` of
buffer `l` (models `DataView.getUint…` reads performed on the output file). -/
def readLEAt (l : List Nat) (pos n : Nat) : Nat := readLE ((l.drop pos).take n)

/-- Modelled from the spec: the "smallest-unsigned-difference padding
calculator" `getPadding` of `util.ts` (not under `src/`): the number of zero
bytes needed to pad an offset/length `n` up to a multiple of `align`. -/
def getPadding (n align : Nat) : Nat := (align - n % align) % align

/-- Modelled from the spec: the "least-common-multiple helper" of `util.ts`
(not under `src/`). -/
def leastCommonMultiple (a b : Nat) : Nat := Nat.lcm a b

/-- A JavaScript string, modelled as its sequence of Unicode code points. -/
abbrev JsString := List Nat

/-- Convenience: build a `JsString` from a Lean string literal. -/
def jsStr (s : String) : JsString := s.data.map Char.toNat

/-- Modelled from the spec: UTF-8 encoding of one code point (the
"UTF-8 encode" text primitive is an external collaborator per the spec). -/
def utf8Char (c : Nat) : List Nat :=
  if c < 0x80 then [c]
  else if c < 0x800 then [0xC0 + c / 64, 0x80 + c % 64]
  else if c < 0x10000 then [0xE0 + c / 4096, 0x80 + c / 64 % 64, 0x80 + c % 64]
  else [0xF0 + c / 262144, 0x80 + c / 4096 % 64, 0x80 + c / 64 % 64, 0x80 + c % 64]

/-- Modelled from the spec: `encodeText` of `util.ts` (not under `src/`),
UTF-8 encoding of a string. -/
def encodeText (s : JsString) : List Nat := (s.map utf8Char).flatten

/-- UTF-16 code units of one code point (surrogate pair above U+FFFF).
JavaScript's `>` on strings compares these units, not UTF-8 bytes. -/
def utf16Char (c : Nat) : List Nat :=
  if c < 0x10000 then [c]
  else [0xD800 + (c - 0x10000) / 0x400, 0xDC00 + (c - 0x10000) % 0x400]

/-- UTF-16 code-unit sequence of a string. -/
def utf16 (s : JsString) : List Nat := (s.map utf16Char).flatten

/-- Strict lexicographic order on lists of naturals. `lexLt (utf16 a) (utf16 b)`
is exactly the JavaScript string comparison `a < b`. -/
def lexLt : List Nat → List Nat → Bool
  | [], [] => false
  | [], _ :: _ => true
  | _ :: _, [] => false
  | a :: as, b :: bs => a < b || (a = b && lexLt as bs)

/-- Modelled from the spec: the 12-byte KTX 2.0 identification tag `KTX2_ID`
of `constants-internal.ts` (not under `src/`); the spec calls it the
"format magic tag" of fixed length. -/
def KTX2_ID : List Nat :=
  [0xAB, 0x4B, 0x54, 0x58, 0x20, 0x32, 0x30, 0xAB, 0x0D, 0x0A, 0x1A, 0x0A]

/-- Modelled from the spec: `HEADER_BYTE_LENGTH` of `constants-internal.ts`
(not under `src/`). Per the spec's layout table the fixed header holds
9 u32 scalars + 2×(u32,u32) + (u64,u64) = 36+16+16 = 68 bytes, which also
matches the highest header write offset (60 + 8) in `write.ts`. -/
def HEADER_BYTE_LENGTH : Nat := 68

/-- Modelled from the spec: the single zero byte `NUL` of
`constants-internal.ts` (not under `src/`). -/
def NUL : List Nat := [0]

/-- Modelled from the spec: `KTX_WRITER` of `constants-internal.ts` (not under
`src/`), the auto-generated writer entry: "library name + version string". -/
def KTX_WRITER : JsString := jsStr (r"ktx-parse v0.0.0")

/-- The key under which the writer entry is injected. -/
def ktxWriterKey : JsString := jsStr (r"KTXwriter")

/-- Modelled from the spec: `KHR_DF_KHR_DESCRIPTORTYPE_BASICFORMAT` of
`constants.ts` (not under `src/`), the "basic format" descriptor type. -/
def KHR_DF_KHR_DESCRIPTORTYPE_BASICFORMAT : Nat := 0

/-- Modelled from the spec: `KHR_SUPERCOMPRESSION_NONE` of `constants.ts`
(not under `src/`). -/
def KHR_SUPERCOMPRESSION_NONE : Nat := 0

/-- Modelled from the spec: `KHR_DF_SAMPLE_DATATYPE_SIGNED` of `constants.ts`
(not under `src/`), the channel-type bit selecting signed sample bounds. -/
def KHR_DF_SAMPLE_DATATYPE_SIGNED : Nat := 0x40

/-! ## Data model (modelled from the spec, `container.ts` is not under `src/`) -/

/-- Modelled from the spec: a key/value map value is either text or raw bytes
(`keyValue: mapping from string key to either a text value or raw bytes`). -/
inductive KVValue where
  | text (s : JsString)
  | bytes (b : List Nat)
  deriving DecidableEq, Repr

/-- Modelled from the spec: one mip level: opaque byte payload plus
64-bit uncompressed byte length. -/
structure KTX2Level where
  levelData : List Nat
  uncompressedByteLength : Nat
  deriving DecidableEq, Repr

/-- Modelled from the spec: `texelBlockDimension` is either the rejected
historical scalar form or a vector (a JS array of numbers, any length —
`Array.isArray` is the only check the code performs). -/
inductive TexelBlockDimension where
  | legacy (n : Nat)
  | vec (dims : List Nat)
  deriving DecidableEq, Repr

/-- Modelled from the spec: one 16-byte DFD sample record. Sample bounds are
JS numbers that may be negative (signed channel types), hence `Int`. -/
structure KTX2Sample where
  bitOffset : Nat
  bitLength : Nat
  channelType : Nat
  samplePosition : List Nat
  sampleLower : Int
  sampleUpper : Int
  deriving DecidableEq, Repr

/-- Modelled from the spec: one Data Format Descriptor block. -/
structure KTX2DFDBlock where
  vendorId : Nat
  descriptorType : Nat
  versionNumber : Nat
  colorModel : Nat
  colorPrimaries : Nat
  transferFunction : Nat
  flags : Nat
  texelBlockDimension : TexelBlockDimension
  bytesPlane : List Nat
  samples : List KTX2Sample
  deriving DecidableEq, Repr

/-- Modelled from the spec: one supercompression-global-data image
description record (five 32-bit fields). -/
structure KTX2ImageDesc where
  imageFlags : Nat
  rgbSliceByteOffset : Nat
  rgbSliceByteLength : Nat
  alphaSliceByteOffset : Nat
  alphaSliceByteLength : Nat
  deriving DecidableEq, Repr

/-- Modelled from the spec: the optional supercompression global data block. -/
structure KTX2GlobalData where
  endpointCount : Nat
  selectorCount : Nat
  imageDescs : List KTX2ImageDesc
  endpointsData : List Nat
  selectorsData : List Nat
  tablesData : List Nat
  extendedData : List Nat
  deriving DecidableEq, Repr

/-- Modelled from the spec: the in-memory KTX2 container (input of `write`). -/
structure KTX2Container where
  vkFormat : Nat
  typeSize : Nat
  pixelWidth : Nat
  pixelHeight : Nat
  pixelDepth : Nat
  layerCount : Nat
  faceCount : Nat
  supercompressionScheme : Nat
  levels : List KTX2Level
  dataFormatDescriptor : List KTX2DFDBlock
  keyValue : List (JsString × KVValue)
  globalData : Option KTX2GlobalData
  deriving DecidableEq, Repr

/-- `WriteOptions` of `write.ts`; the `{...DEFAULT_OPTIONS, ...options}` merge
resolves the optional `keepWriter` to a boolean (default `false`). -/
structure WriteOptions where
  keepWriter : Bool
  deriving DecidableEq, Repr

/-! ## Components of `write` (translated from `src/src/write.ts`) -/

/-- One 20-byte image-description record of the SGD header
(`write.ts` lines 46–53). -/
def imageDescBytes (d : KTX2ImageDesc) : List Nat :=
  u32LE d.imageFlags ++ u32LE d.rgbSliceByteOffset ++ u32LE d.rgbSliceByteLength
    ++ u32LE d.alphaSliceByteOffset ++ u32LE d.alphaSliceByteLength

/-- The SGD block: 20-byte header, image-description records, then the four
payload blobs in fixed order (`write.ts` lines 36–61). -/
def sgdBytes (gd : KTX2GlobalData) : List Nat :=
  u16LE gd.endpointCount ++ u16LE gd.selectorCount
    ++ u32LE gd.endpointsData.length ++ u32LE gd.selectorsData.length
    ++ u32LE gd.tablesData.length ++ u32LE gd.extendedData.length
    ++ (gd.imageDescs.map imageDescBytes).flatten
    ++ gd.endpointsData ++ gd.selectorsData ++ gd.tablesData ++ gd.extendedData

/-- `sgdBuffer` of `write.ts` line 35: empty unless `globalData` is present. -/
def sgdBufferOf (c : KTX2Container) : List Nat :=
  match c.globalData with
  | none => []
  | some gd => sgdBytes gd

/-- JS object-spread update `{...obj, k: v}`: if `k` is present its value is
replaced in place (the later spread wins); otherwise `(k, v)` is appended. -/
def setKey : List (JsString × KVValue) → JsString → KVValue → List (JsString × KVValue)
  | [], k, v => [(k, v)]
  | (k0, v0) :: rest, k, v =>
      if k0 = k then (k0, v) :: rest else (k0, v0) :: setKey rest k v

/-- The merged key/value list of `write.ts` lines 69–72:
`Object.entries({...container.keyValue, ...(!options.keepWriter && {KTXwriter: KTX_WRITER})})`.
The generated entry is spread second, so when `keepWriter` is false it
overrides any caller-supplied `KTXwriter` value. (The pre-sort entry order of
`Object.entries` is irrelevant: the list is sorted by unique keys below.) -/
def mergedKeyValue (kv : List (JsString × KVValue)) (keepWriter : Bool) :
    List (JsString × KVValue) :=
  if keepWriter then kv else setKey kv ktxWriterKey (KVValue.text KTX_WRITER)

/-- The JS comparator `(a, b) => (a[0] > b[0] ? 1 : -1)` of `write.ts` line 74
returns 1 exactly when `a`'s key exceeds `b`'s in UTF-16 code-unit order;
`kvLe a b` holds when the comparator does not order `a` after `b`. -/
def kvLe (a b : JsString × KVValue) : Prop :=
  lexLt (utf16 b.1) (utf16 a.1) = false

instance : DecidableRel kvLe := fun a b =>
  inferInstanceAs (Decidable (_ = false))

/-- `keyValueList.sort(...)` of `write.ts` line 74. With unique keys the
comparator is a strict total order, so any conforming JS sort produces the
unique ascending arrangement; it is modelled by insertion sort under `kvLe`. -/
def sortKV (l : List (JsString × KVValue)) : List (JsString × KVValue) :=
  List.insertionSort kvLe l

/-- One serialized key/value entry: u32 length prefix, UTF-8 key, NUL, value
(text value gets a trailing NUL), zero padding to a multiple of 4
(`write.ts` lines 76–90). -/
def kvEntryBytes (e : JsString × KVValue) : List Nat :=
  let keyData := encodeText e.1
  let valueData :=
    match e.2 with
    | KVValue.text s => encodeText s ++ NUL
    | KVValue.bytes b => b
  let kvByteLength := keyData.length + 1 + valueData.length
  let kvPadding := getPadding kvByteLength 4
  u32LE kvByteLength ++ keyData ++ NUL ++ valueData ++ List.replicate kvPadding 0

/-- `kvdBuffer` of `write.ts` line 92: concatenation of the sorted entries. -/
def kvdBufferOf (c : KTX2Container) (opts : WriteOptions) : List Nat :=
  ((sortKV (mergedKeyValue c.keyValue opts.keepWriter)).map kvEntryBytes).flatten

/-- A 32-bit two's-complement little-endian write of a JS number. `setInt32`
and `setUint32` store the same four bytes for the same number, namely its
value modulo 2^32, so both branches of `write.ts` lines 146–152 use this. -/
def int32LE (v : Int) : List Nat := toLE 4 (v.emod 4294967296).toNat

/-- One 16-byte DFD sample record (`write.ts` lines 133–153). Reads past the
end of `samplePosition` are JS `undefined`, stored as byte 0 (`getD _ 0`). -/
def sampleBytes (s : KTX2Sample) : List Nat :=
  u16LE s.bitOffset ++ [s.bitLength % 256, s.channelType % 256]
    ++ [s.samplePosition.getD 0 0 % 256, s.samplePosition.getD 1 0 % 256,
        s.samplePosition.getD 2 0 % 256, s.samplePosition.getD 3 0 % 256]
    ++ (if s.channelType &&& KHR_DF_SAMPLE_DATATYPE_SIGNED ≠ 0 then
          int32LE s.sampleLower ++ int32LE s.sampleUpper
        else
          int32LE s.sampleLower ++ int32LE s.sampleUpper)

/-- The texel-block-dimension bytes 16–19 of the DFD block; entries missing
from a short array are JS `undefined`, stored as 0 (`write.ts` 126–129). -/
def texelBlockDimensionBytes (dims : List Nat) : List Nat :=
  [dims.getD 0 0 % 256, dims.getD 1 0 % 256, dims.getD 2 0 % 256, dims.getD 3 0 % 256]

/-- The DFD block of `write.ts` lines 107–153 for a block whose
`texelBlockDimension` is the array `dims` (total size 28 + 16·samples). -/
def dfdBytes (dfd : KTX2DFDBlock) (dims : List Nat) : List Nat :=
  u32LE (28 + dfd.samples.length * 16) ++ u16LE dfd.vendorId
    ++ u16LE dfd.descriptorType ++ u16LE dfd.versionNumber
    ++ u16LE (24 + dfd.samples.length * 16)
    ++ [dfd.colorModel % 256, dfd.colorPrimaries % 256,
        dfd.transferFunction % 256, dfd.flags % 256]
    ++ texelBlockDimensionBytes dims
    ++ [dfd.bytesPlane.getD 0 0 % 256, dfd.bytesPlane.getD 1 0 % 256,
        dfd.bytesPlane.getD 2 0 % 256, dfd.bytesPlane.getD 3 0 % 256,
        dfd.bytesPlane.getD 4 0 % 256, dfd.bytesPlane.getD 5 0 % 256,
        dfd.bytesPlane.getD 6 0 % 256, dfd.bytesPlane.getD 7 0 % 256]
    ++ (dfd.samples.map sampleBytes).flatten

/-- The emitted DFD buffer of a container (meaningful when the container has
exactly one DFD block whose `texelBlockDimension` is an array; `write`
rejects every other container before this buffer is used). -/
def dfdBytesOf (c : KTX2Container) : List Nat :=
  match c.dataFormatDescriptor with
  | dfd :: _ =>
    match dfd.texelBlockDimension with
    | TexelBlockDimension.vec dims => dfdBytes dfd dims
    | TexelBlockDimension.legacy _ => []
  | [] => []

/-- `dfdByteOffset` of `write.ts` line 159. -/
def dfdByteOffsetOf (c : KTX2Container) : Nat :=
  KTX2_ID.length + HEADER_BYTE_LENGTH + c.levels.length * 3 * 8

/-- `kvdByteOffset` of `write.ts` line 160. -/
def kvdByteOffsetOf (c : KTX2Container) (opts : WriteOptions) : Nat :=
  dfdByteOffsetOf c + (dfdBytesOf c).length

/-- `sgdByteOffset` of `write.ts` lines 161–162: 0 when the SGD section is
empty, otherwise the KVD end rounded up to the next multiple of 8. -/
def sgdByteOffsetOf (c : KTX2Container) (opts : WriteOptions) : Nat :=
  let o :=
    if (sgdBufferOf c).length > 0 then
      kvdByteOffsetOf c opts + (kvdBufferOf c opts).length
    else 0
  if o % 8 ≠ 0 then o + (8 - o % 8) else o

/-- `levelAlign` of `write.ts` lines 172–175: `lcm(blockByteLength, 4)` when
the supercompression scheme is NONE, otherwise 0 (no level alignment; the
JS guard `offset % 0` is `NaN`, which is falsy, so 0 disables padding).
`getBlockByteLength` of `util.ts` (not under `src/`) is an assumed pure
function of the container, passed here as the parameter `gbbl`. -/
def levelAlignOf (gbbl : KTX2Container → Nat) (c : KTX2Container) : Nat :=
  if c.supercompressionScheme = KHR_SUPERCOMPRESSION_NONE then
    leastCommonMultiple (gbbl c) 4
  else 0

/-- The first byte offset of the level-data region
(`write.ts` line 178: `(sgdByteOffset || kvdByteOffset + kvdBuffer.byteLength) + sgdBuffer.byteLength`). -/
def levelDataStartOf (c : KTX2Container) (opts : WriteOptions) : Nat :=
  (if sgdByteOffsetOf c opts = 0 then
     kvdByteOffsetOf c opts + (kvdBufferOf c opts).length
   else sgdByteOffsetOf c opts) + (sgdBufferOf c).length

/-- The level-packing loop of `write.ts` lines 179–192, walking the levels in
processing order (original index N−1 down to 0, i.e. `levels.reverse`).
Returns the physical chunks (padding runs and payloads, in file order), the
untruncated byte offsets in processing order, and the final cursor. -/
def packRev (align : Nat) : List KTX2Level → Nat → List (List Nat) × List Nat × Nat
  | [], cur => ([], [], cur)
  | lv :: rest, cur =>
      let pad := if align ≠ 0 ∧ cur % align ≠ 0 then getPadding cur align else 0
      let off := cur + pad
      let r := packRev align rest (off + lv.levelData.length)
      ((if pad = 0 then [lv.levelData] else [List.replicate pad 0, lv.levelData]) ++ r.1,
       off :: r.2.1, r.2.2)

/-- Result of packing a container's levels. -/
def packOf (gbbl : KTX2Container → Nat) (c : KTX2Container) (opts : WriteOptions) :
    List (List Nat) × List Nat × Nat :=
  packRev (levelAlignOf gbbl c) c.levels.reverse (levelDataStartOf c opts)

/-- The physical level-data chunks, in file order. -/
def levelChunksOf (gbbl : KTX2Container → Nat) (c : KTX2Container)
    (opts : WriteOptions) : List (List Nat) :=
  (packOf gbbl c opts).1

/-- The untruncated physical byte offset of each level, in original index
order 0..N−1 (the value the code computes before storing it into the
32-bit-wide `levelDataByteOffsets` array). -/
def levelOffsetsOf (gbbl : KTX2Container → Nat) (c : KTX2Container)
    (opts : WriteOptions) : List Nat :=
  (packOf gbbl c opts).2.1.reverse

/-- One 24-byte level-index entry (`write.ts` lines 195–200). The offset was
stored through a `Uint32Array` (line 170/190), so the u64 field receives the
true offset reduced modulo 2^32. -/
def levelIndexEntryBytes (p : KTX2Level × Nat) : List Nat :=
  u64LE (p.2 % 4294967296) ++ u64LE p.1.levelData.length
    ++ u64LE p.1.uncompressedByteLength

/-- The level index table, entries in original index order 0..N−1. -/
def levelIndexBytesOf (gbbl : KTX2Container → Nat) (c : KTX2Container)
    (opts : WriteOptions) : List Nat :=
  ((c.levels.zip (levelOffsetsOf gbbl c opts)).map levelIndexEntryBytes).flatten

/-- The 68-byte fixed header (`write.ts` lines 206–223). -/
def headerBytesOf (c : KTX2Container) (opts : WriteOptions) : List Nat :=
  u32LE c.vkFormat ++ u32LE c.typeSize ++ u32LE c.pixelWidth
    ++ u32LE c.pixelHeight ++ u32LE c.pixelDepth ++ u32LE c.layerCount
    ++ u32LE c.faceCount ++ u32LE c.levels.length
    ++ u32LE c.supercompressionScheme
    ++ u32LE (dfdByteOffsetOf c) ++ u32LE (dfdBytesOf c).length
    ++ u32LE (kvdByteOffsetOf c opts) ++ u32LE (kvdBufferOf c opts).length
    ++ u64LE (if (sgdBufferOf c).length > 0 then sgdByteOffsetOf c opts else 0)
    ++ u64LE (sgdBufferOf c).length

/-- The zero padding between KVD end and SGD start
(`write.ts` lines 236–238). -/
def alignPadOf (c : KTX2Container) (opts : WriteOptions) : List Nat :=
  if sgdByteOffsetOf c opts > 0 then
    List.replicate
      (sgdByteOffsetOf c opts
        - (kvdByteOffsetOf c opts + (kvdBufferOf c opts).length)) 0
  else []

/-- The composed output buffer (`write.ts` lines 229–242). -/
def outputBytes (gbbl : KTX2Container → Nat) (c : KTX2Container)
    (opts : WriteOptions) : List Nat :=
  KTX2_ID ++ headerBytesOf c opts ++ levelIndexBytesOf gbbl c opts
    ++ dfdBytesOf c ++ kvdBufferOf c opts ++ alignPadOf c opts
    ++ sgdBufferOf c ++ (levelChunksOf gbbl c opts).flatten

/-- `write` of `src/src/write.ts`: serializes a container, or throws on the
two DFD checks (lines 98–103 and 122–124). `gbbl` stands for the external
helper `getBlockByteLength` (see `levelAlignOf`). -/
def write (gbbl : KTX2Container → Nat) (container : KTX2Container)
    (options : WriteOptions) : Except String (List Nat) :=
  match container.dataFormatDescriptor with
  | [dfd] =>
    if dfd.descriptorType = KHR_DF_KHR_DESCRIPTORTYPE_BASICFORMAT then
      match dfd.texelBlockDimension with
      | TexelBlockDimension.vec _ =>
          Except.ok (outputBytes gbbl container options)
      | TexelBlockDimension.legacy _ =>
          Except.error (r"texelBlockDimension is now an array. For dimensionality d, set d - 1.")
    else
      Except.error (r"Only BASICFORMAT Data Format Descriptor output supported.")
  | _ =>
      Except.error (r"Only BASICFORMAT Data Format Descriptor output supported.")

/-! ## Byte-level lemmas -/

theorem toLE_length (k n : Nat) : (toLE k n).length = k := by
  induction k generalizing n with
  | zero => rfl
  | succ k ih => simp [toLE, ih]

theorem u16LE_length (n : Nat) : (u16LE n).length = 2 := toLE_length 2 n

theorem u32LE_length (n : Nat) : (u32LE n).length = 4 := toLE_length 4 n

theorem u64LE_length (n : Nat) : (u64LE n).length = 8 := toLE_length 8 n

theorem int32LE_length (v : Int) : (int32LE v).length = 4 := toLE_length 4 _

/-- Little-endian roundtrip: reading back `k` bytes recovers the value
modulo `2^(8k)`. -/
theorem readLE_toLE (k n : Nat) : readLE (toLE k n) = n % 2 ^ (8 * k) := by
  induction k generalizing n with
  | zero => simp [toLE, readLE, Nat.mod_one]
  | succ k ih =>
      have h : 2 ^ (8 * (k + 1)) = 256 * 2 ^ (8 * k) := by
        rw [Nat.mul_succ, pow_add]; ring
      rw [toLE, readLE, ih, h, Nat.mod_mul]

theorem readLE_u64LE (n : Nat) (h : n < 2 ^ 64) : readLE (u64LE n) = n := by
  rw [u64LE, readLE_toLE]; exact Nat.mod_eq_of_lt (by exact_mod_cast h)

theorem readLE_u32LE (n : Nat) (h : n < 2 ^ 32) : readLE (u32LE n) = n := by
  rw [u32LE, readLE_toLE]; exact Nat.mod_eq_of_lt (by exact_mod_cast h)

/-! ## List positioning helpers -/

theorem drop_append_add {α : Type} (A B : List α) (k : Nat) :
    (A ++ B).drop (A.length + k) = B.drop k := by
  induction A with
  | nil => simp
  | cons a A ih => simp [Nat.succ_add, ih]

theorem drop_append_of_len {α : Type} {A : List α} (B : List α) {n : Nat}
    (h : A.length = n) : (A ++ B).drop n = B := by
  subst h; exact List.drop_left A B

theorem take_append_of_len {α : Type} {A : List α} (B : List α) {n : Nat}
    (h : A.length = n) : (A ++ B).take n = A := by
  subst h; exact List.take_left A B

theorem drop_append_of_len_add {α : Type} {A : List α} (B : List α) {n k : Nat}
    (h : A.length = n) : (A ++ B).drop (n + k) = B.drop k := by
  subst h; exact drop_append_add A B k

/-- Reading a `k`-byte little-endian field placed right at the cut. -/
theorem readLEAt_field (l R : List Nat) (pos k n : Nat)
    (hd : l.drop pos = toLE k n ++ R) : readLEAt l pos k = n % 2 ^ (8 * k) := by
  rw [readLEAt, hd, take_append_of_len R (toLE_length k n), readLE_toLE]

/-- A member of a list of chunks is an infix of the flattened chunks. -/
theorem infixOfMemFlatten {α : Type} {l : List α} {L : List (List α)}
    (h : l ∈ L) : l <:+: L.flatten :=
  List.infix_of_mem_flatten h

/-! ## Section lengths -/

theorem imageDescBytes_length (d : KTX2ImageDesc) :
    (imageDescBytes d).length = 20 := by
  simp [imageDescBytes, u32LE_length]

theorem sgdBytes_length (gd : KTX2GlobalData) :
    (sgdBytes gd).length =
      20 + 20 * gd.imageDescs.length + gd.endpointsData.length
        + gd.selectorsData.length + gd.tablesData.length
        + gd.extendedData.length := by
  have h : ((gd.imageDescs.map imageDescBytes).flatten).length
      = 20 * gd.imageDescs.length := by
    induction gd.imageDescs with
    | nil => rfl
    | cons d ds ih =>
        simp only [List.map_cons, List.flatten_cons, List.length_append, ih,
          imageDescBytes_length, List.length_cons]
        omega
  simp only [sgdBytes, List.length_append, h, u16LE_length, u32LE_length]

/-- The SGD buffer is nonempty exactly when `globalData` is present. -/
theorem sgdBufferOf_pos (c : KTX2Container) (gd : KTX2GlobalData)
    (h : c.globalData = some gd) : 0 < (sgdBufferOf c).length := by
  simp only [sgdBufferOf, h, sgdBytes_length]; omega

theorem sampleBytes_length (s : KTX2Sample) : (sampleBytes s).length = 16 := by
  by_cases h : s.channelType &&& KHR_DF_SAMPLE_DATATYPE_SIGNED ≠ 0 <;>
    simp [sampleBytes, h, u16LE_length, int32LE_length]

theorem dfdBytes_length (dfd : KTX2DFDBlock) (dims : List Nat) :
    (dfdBytes dfd dims).length = 28 + dfd.samples.length * 16 := by
  have h : ((dfd.samples.map sampleBytes).flatten).length
      = dfd.samples.length * 16 := by
    induction dfd.samples with
    | nil => rfl
    | cons s ss ih =>
        simp only [List.map_cons, List.flatten_cons, List.length_append, ih,
          sampleBytes_length, List.length_cons]
        omega
  simp only [dfdBytes, texelBlockDimensionBytes, List.length_append, h,
    u32LE_length, u16LE_length, List.length_cons, List.length_nil]

theorem headerBytesOf_length (c : KTX2Container) (opts : WriteOptions) :
    (headerBytesOf c opts).length = 68 := by
  simp [headerBytesOf, u32LE_length, u64LE_length]

theorem levelIndexEntryBytes_length (p : KTX2Level × Nat) :
    (levelIndexEntryBytes p).length = 24 := by
  simp [levelIndexEntryBytes, u64LE_length]

/-- Every serialized key/value entry occupies a multiple of 4 bytes. -/
theorem kvEntryBytes_length_mod_four (e : JsString × KVValue) :
    (kvEntryBytes e).length % 4 = 0 := by
  simp only [kvEntryBytes, NUL, List.length_append, u32LE_length,
    List.length_replicate, List.length_cons, List.length_nil, getPadding]
  omega

/-! ## Level-packing lemmas -/

/-- Placeholder level for `getD` reads (never selected under the stated
index bounds). -/
def defaultLevel : KTX2Level := { levelData := [], uncompressedByteLength := 0 }

theorem packRev_offs_length (a : Nat) (ls : List KTX2Level) (cur : Nat) :
    (packRev a ls cur).2.1.length = ls.length := by
  induction ls generalizing cur with
  | nil => rfl
  | cons lv rest ih => simp [packRev, ih]

theorem packRev_cur_le_fin (a : Nat) (ls : List KTX2Level) (cur : Nat) :
    cur ≤ (packRev a ls cur).2.2 := by
  induction ls generalizing cur with
  | nil => simp [packRev]
  | cons lv rest ih =>
      simp only [packRev]
      exact le_trans (Nat.le_add_right _ _)
        (le_trans (Nat.le_add_right _ _) (ih _))

theorem packRev_flatten_length (a : Nat) (ls : List KTX2Level) (cur : Nat) :
    cur + ((packRev a ls cur).1.flatten).length = (packRev a ls cur).2.2 := by
  induction ls generalizing cur with
  | nil => simp [packRev]
  | cons lv rest ih =>
      set pad := if a ≠ 0 ∧ cur % a ≠ 0 then getPadding cur a else 0 with hpad
      have hheadlen : ((if pad = 0 then [lv.levelData]
          else [List.replicate pad 0, lv.levelData]) : List (List Nat)).flatten.length
          = pad + lv.levelData.length := by
        by_cases h0 : pad = 0 <;> simp [h0]
      simp only [packRev, ← hpad, List.flatten_append, List.length_append, hheadlen]
      have := ih (cur + pad + lv.levelData.length)
      omega

/-- The core packing invariant (one level, processing order index `j`):
its recorded offset is at or after the cursor, the payload lies wholly
inside the packed region, slicing the packed region at the offset recovers
the payload, and the offset is aligned when an alignment is in force. -/
theorem packRev_spec (a : Nat) (ls : List KTX2Level) (cur : Nat) (j : Nat)
    (hj : j < ls.length) :
    cur ≤ (packRev a ls cur).2.1.getD j 0 ∧
    (packRev a ls cur).2.1.getD j 0 + (ls.getD j defaultLevel).levelData.length
        ≤ (packRev a ls cur).2.2 ∧
    (((packRev a ls cur).1.flatten).drop
          ((packRev a ls cur).2.1.getD j 0 - cur)).take
        (ls.getD j defaultLevel).levelData.length
      = (ls.getD j defaultLevel).levelData ∧
    (a ≠ 0 → (packRev a ls cur).2.1.getD j 0 % a = 0) := by
  induction ls generalizing cur j with
  | nil => exact absurd hj (by simp)
  | cons lv rest ih =>
      set pad := if a ≠ 0 ∧ cur % a ≠ 0 then getPadding cur a else 0 with hpad
      have hchunks : (packRev a (lv :: rest) cur).1
          = (if pad = 0 then [lv.levelData]
             else [List.replicate pad 0, lv.levelData])
            ++ (packRev a rest (cur + pad + lv.levelData.length)).1 := by
        simp [packRev, ← hpad]
      have hoffs : (packRev a (lv :: rest) cur).2.1
          = (cur + pad) :: (packRev a rest (cur + pad + lv.levelData.length)).2.1 := by
        simp [packRev, ← hpad]
      have hfin : (packRev a (lv :: rest) cur).2.2
          = (packRev a rest (cur + pad + lv.levelData.length)).2.2 := by
        simp [packRev, ← hpad]
      have hheadlen : ((if pad = 0 then [lv.levelData]
          else [List.replicate pad 0, lv.levelData]) : List (List Nat)).flatten.length
          = pad + lv.levelData.length := by
        by_cases h0 : pad = 0 <;> simp [h0]
      match j with
      | 0 =>
          refine ⟨?_, ?_, ?_, ?_⟩
          · rw [hoffs]; simp
          · rw [hoffs, hfin]
            simp only [List.getD_cons_zero]
            have := packRev_cur_le_fin a rest (cur + pad + lv.levelData.length)
            omega
          · rw [hoffs, hchunks]
            simp only [List.getD_cons_zero, Nat.add_sub_cancel_left,
              List.flatten_append]
            by_cases h0 : pad = 0
            · rw [if_pos h0, h0]
              simp only [List.flatten_cons, List.flatten_nil, List.append_nil,
                List.drop_zero]
              exact take_append_of_len _ rfl
            · rw [if_neg h0]
              simp only [List.flatten_cons, List.flatten_nil, List.append_nil]
              rw [List.append_assoc,
                drop_append_of_len _ (List.length_replicate pad 0),
                take_append_of_len _ rfl]
          · intro ha
            rw [hoffs]
            simp only [List.getD_cons_zero]
            by_cases hc : cur % a = 0
            · have hp0 : pad = 0 := by simp [hpad, hc]
              simp [hp0, hc]
            · have hplt : 0 < a := Nat.pos_of_ne_zero ha
              have hgp : getPadding cur a = a - cur % a := by
                unfold getPadding
                exact Nat.mod_eq_of_lt (by have := Nat.mod_lt cur hplt; omega)
              have hpv : pad = a - cur % a := by
                rw [hpad, if_pos ⟨ha, hc⟩, hgp]
              have hd := Nat.div_add_mod cur a
              have hr : cur % a < a := Nat.mod_lt cur hplt
              have hoff : cur + pad = a * (cur / a + 1) := by
                rw [Nat.mul_succ]; omega
              rw [hoff]; exact Nat.mul_mod_right _ _
      | j + 1 =>
          have hj' : j < rest.length := by
            simpa using hj
          obtain ⟨h1, h2, h3, h4⟩ := ih (cur + pad + lv.levelData.length) j hj'
          refine ⟨?_, ?_, ?_, ?_⟩
          · rw [hoffs]
            simp only [List.getD_cons_succ]
            omega
          · rw [hoffs, hfin]
            simpa using h2
          · rw [hoffs, hchunks]
            simp only [List.getD_cons_succ, List.flatten_append]
            have harith :
                (packRev a rest (cur + pad + lv.levelData.length)).2.1.getD j 0 - cur
                  = (pad + lv.levelData.length)
                    + ((packRev a rest (cur + pad + lv.levelData.length)).2.1.getD j 0
                      - (cur + pad + lv.levelData.length)) := by
              omega
            rw [harith,
              drop_append_of_len_add _ (by rw [hheadlen])]
            simpa using h3
          · rw [hoffs]
            simp only [List.getD_cons_succ]
            exact h4

/-- Offsets are monotone in processing order: later-processed levels land at
equal or higher addresses. -/
theorem packRev_offs_mono (a : Nat) (ls : List KTX2Level) (cur : Nat) (i j : Nat)
    (hij : i ≤ j) (hj : j < ls.length) :
    (packRev a ls cur).2.1.getD i 0 ≤ (packRev a ls cur).2.1.getD j 0 := by
  induction ls generalizing cur i j with
  | nil => simp at hj
  | cons lv rest ih =>
      set pad := if a ≠ 0 ∧ cur % a ≠ 0 then getPadding cur a else 0 with hpad
      have hoffs : (packRev a (lv :: rest) cur).2.1
          = (cur + pad) :: (packRev a rest (cur + pad + lv.levelData.length)).2.1 := by
        simp [packRev, ← hpad]
      rw [hoffs]
      match i, j with
      | 0, 0 => exact le_refl _
      | 0, j + 1 =>
          simp only [List.getD_cons_zero, List.getD_cons_succ]
          have hj' : j < rest.length := by simpa using hj
          have := (packRev_spec a rest (cur + pad + lv.levelData.length) j hj').1
          omega
      | i + 1, j + 1 =>
          simp only [List.getD_cons_succ]
          exact ih _ i j (by omega) (by simpa using hj)

/-- With alignment 0 (any supercompression scheme other than NONE) no padding
chunk is ever emitted: the physical chunks are exactly the payloads in
processing order. -/
theorem packRev_align_zero (ls : List KTX2Level) (cur : Nat) :
    (packRev 0 ls cur).1 = ls.map (fun lv => lv.levelData) := by
  induction ls generalizing cur with
  | nil => rfl
  | cons lv rest ih => simp [packRev, ih]

/-- `getD` through `reverse`. -/
theorem getD_reverse {α : Type} (l : List α) (i : Nat) (d : α)
    (h : i < l.length) :
    l.reverse.getD i d = l.getD (l.length - 1 - i) d := by
  have h' : i < l.reverse.length := by simpa using h
  rw [List.getD_eq_getElem _ _ h', List.getElem_reverse,
    List.getD_eq_getElem _ _ (by omega)]

theorem levelOffsetsOf_length (gbbl : KTX2Container → Nat) (c : KTX2Container)
    (opts : WriteOptions) :
    (levelOffsetsOf gbbl c opts).length = c.levels.length := by
  simp [levelOffsetsOf, packOf, packRev_offs_length]

/-- Generic: flattening a map whose images all have length `k`. -/
theorem flatten_map_len {α : Type} (f : α → List Nat) (k : Nat) (L : List α)
    (h : ∀ x, (f x).length = k) :
    ((L.map f).flatten).length = k * L.length := by
  induction L with
  | nil => simp
  | cons x xs ih =>
      simp only [List.map_cons, List.flatten_cons, List.length_append, ih, h,
        List.length_cons]
      ring

theorem levelIndexBytesOf_length (gbbl : KTX2Container → Nat)
    (c : KTX2Container) (opts : WriteOptions) :
    (levelIndexBytesOf gbbl c opts).length = 24 * c.levels.length := by
  rw [levelIndexBytesOf,
    flatten_map_len levelIndexEntryBytes 24 _ levelIndexEntryBytes_length,
    List.length_zip, levelOffsetsOf_length, min_self]

/-! ## Output-buffer decomposition -/

theorem outputBytes_assoc (gbbl : KTX2Container → Nat) (c : KTX2Container)
    (opts : WriteOptions) :
    outputBytes gbbl c opts
      = (KTX2_ID ++ headerBytesOf c opts)
        ++ (levelIndexBytesOf gbbl c opts
          ++ (dfdBytesOf c ++ (kvdBufferOf c opts
            ++ (alignPadOf c opts
              ++ (sgdBufferOf c ++ (levelChunksOf gbbl c opts).flatten))))) := by
  simp [outputBytes, List.append_assoc]

theorem prefix80_length (c : KTX2Container) (opts : WriteOptions) :
    (KTX2_ID ++ headerBytesOf c opts).length = 80 := by
  simp [List.length_append, headerBytesOf_length, KTX2_ID]

theorem outputBytes_drop80 (gbbl : KTX2Container → Nat) (c : KTX2Container)
    (opts : WriteOptions) :
    (outputBytes gbbl c opts).drop 80
      = levelIndexBytesOf gbbl c opts
        ++ (dfdBytesOf c ++ (kvdBufferOf c opts
          ++ (alignPadOf c opts
            ++ (sgdBufferOf c ++ (levelChunksOf gbbl c opts).flatten)))) := by
  rw [outputBytes_assoc]
  exact drop_append_of_len _ (prefix80_length c opts)

theorem dfdByteOffsetOf_eq (c : KTX2Container) :
    dfdByteOffsetOf c = 80 + 24 * c.levels.length := by
  simp only [dfdByteOffsetOf, KTX2_ID, HEADER_BYTE_LENGTH, List.length_cons,
    List.length_nil]
  ring

theorem outputBytes_drop_dfd (gbbl : KTX2Container → Nat) (c : KTX2Container)
    (opts : WriteOptions) :
    (outputBytes gbbl c opts).drop (dfdByteOffsetOf c)
      = dfdBytesOf c ++ (kvdBufferOf c opts
        ++ (alignPadOf c opts
          ++ (sgdBufferOf c ++ (levelChunksOf gbbl c opts).flatten))) := by
  have hassoc : outputBytes gbbl c opts
      = ((KTX2_ID ++ headerBytesOf c opts) ++ levelIndexBytesOf gbbl c opts)
        ++ (dfdBytesOf c ++ (kvdBufferOf c opts
          ++ (alignPadOf c opts
            ++ (sgdBufferOf c ++ (levelChunksOf gbbl c opts).flatten)))) := by
    simp [outputBytes, List.append_assoc]
  rw [hassoc]
  refine drop_append_of_len _ ?_
  rw [List.length_append, prefix80_length, levelIndexBytesOf_length,
    dfdByteOffsetOf_eq]

theorem outputBytes_drop_kvd (gbbl : KTX2Container → Nat) (c : KTX2Container)
    (opts : WriteOptions) :
    (outputBytes gbbl c opts).drop (kvdByteOffsetOf c opts)
      = kvdBufferOf c opts
        ++ (alignPadOf c opts
          ++ (sgdBufferOf c ++ (levelChunksOf gbbl c opts).flatten)) := by
  have hassoc : outputBytes gbbl c opts
      = (((KTX2_ID ++ headerBytesOf c opts) ++ levelIndexBytesOf gbbl c opts)
          ++ dfdBytesOf c)
        ++ (kvdBufferOf c opts
          ++ (alignPadOf c opts
            ++ (sgdBufferOf c ++ (levelChunksOf gbbl c opts).flatten))) := by
    simp [outputBytes, List.append_assoc]
  rw [hassoc]
  refine drop_append_of_len _ ?_
  rw [List.length_append, List.length_append, prefix80_length,
    levelIndexBytesOf_length, kvdByteOffsetOf, dfdByteOffsetOf_eq]

theorem sgdByteOffsetOf_zero (c : KTX2Container) (opts : WriteOptions)
    (h : (sgdBufferOf c).length = 0) : sgdByteOffsetOf c opts = 0 := by
  simp [sgdByteOffsetOf, h]

theorem kvdByteOffsetOf_eq (c : KTX2Container) (opts : WriteOptions) :
    kvdByteOffsetOf c opts = 80 + 24 * c.levels.length + (dfdBytesOf c).length := by
  rw [kvdByteOffsetOf, dfdByteOffsetOf_eq]

/-- When the SGD section is nonempty, its start offset is the KVD end rounded
up to the next multiple of 8 (strictly less than 8 bytes of padding). -/
theorem sgdByteOffsetOf_pos_spec (c : KTX2Container) (opts : WriteOptions)
    (h : 0 < (sgdBufferOf c).length) :
    kvdByteOffsetOf c opts + (kvdBufferOf c opts).length ≤ sgdByteOffsetOf c opts
      ∧ sgdByteOffsetOf c opts % 8 = 0
      ∧ sgdByteOffsetOf c opts
          < kvdByteOffsetOf c opts + (kvdBufferOf c opts).length + 8
      ∧ 0 < sgdByteOffsetOf c opts := by
  have h80 : 80 ≤ kvdByteOffsetOf c opts + (kvdBufferOf c opts).length := by
    rw [kvdByteOffsetOf_eq]; omega
  simp only [sgdByteOffsetOf, gt_iff_lt, if_pos h]
  by_cases hm : (kvdByteOffsetOf c opts + (kvdBufferOf c opts).length) % 8 ≠ 0
  · rw [if_pos hm]; omega
  · rw [if_neg hm]; omega

/-- The bytes preceding the level-data region have total length
`levelDataStartOf` — the code's cursor start matches the actual layout. -/
theorem prefixFull_length (gbbl : KTX2Container → Nat) (c : KTX2Container)
    (opts : WriteOptions) :
    ((KTX2_ID ++ headerBytesOf c opts)
      ++ (levelIndexBytesOf gbbl c opts ++ (dfdBytesOf c ++ (kvdBufferOf c opts
        ++ (alignPadOf c opts ++ sgdBufferOf c))))).length
      = levelDataStartOf c opts := by
  have h24 := levelIndexBytesOf_length gbbl c opts
  have h80 := prefix80_length c opts
  have hkvd := kvdByteOffsetOf_eq c opts
  by_cases h : (sgdBufferOf c).length = 0
  · have hz := sgdByteOffsetOf_zero c opts h
    have hpad : (alignPadOf c opts).length = 0 := by simp [alignPadOf, hz]
    simp only [levelDataStartOf, hz, List.length_append, h80, h24, hpad, h,
      eq_self_iff_true, if_true]
    omega
  · have hsp := sgdByteOffsetOf_pos_spec c opts (Nat.pos_of_ne_zero h)
    have hOffPos : sgdByteOffsetOf c opts ≠ 0 := by omega
    have hpad : (alignPadOf c opts).length
        = sgdByteOffsetOf c opts
          - (kvdByteOffsetOf c opts + (kvdBufferOf c opts).length) := by
      simp [alignPadOf, Nat.pos_of_ne_zero hOffPos]
    simp only [levelDataStartOf, List.length_append, h80, h24, hpad]
    rw [if_neg hOffPos]
    omega

theorem outputBytes_drop_levels (gbbl : KTX2Container → Nat) (c : KTX2Container)
    (opts : WriteOptions) :
    (outputBytes gbbl c opts).drop (levelDataStartOf c opts)
      = (levelChunksOf gbbl c opts).flatten := by
  have hassoc : outputBytes gbbl c opts
      = ((KTX2_ID ++ headerBytesOf c opts)
          ++ (levelIndexBytesOf gbbl c opts ++ (dfdBytesOf c
            ++ (kvdBufferOf c opts ++ (alignPadOf c opts ++ sgdBufferOf c)))))
        ++ (levelChunksOf gbbl c opts).flatten := by
    simp [outputBytes, List.append_assoc]
  rw [hassoc]
  exact drop_append_of_len _ (prefixFull_length gbbl c opts)

theorem outputBytes_length (gbbl : KTX2Container → Nat) (c : KTX2Container)
    (opts : WriteOptions) :
    (outputBytes gbbl c opts).length
      = levelDataStartOf c opts + ((levelChunksOf gbbl c opts).flatten).length := by
  have hassoc : outputBytes gbbl c opts
      = ((KTX2_ID ++ headerBytesOf c opts)
          ++ (levelIndexBytesOf gbbl c opts ++ (dfdBytesOf c
            ++ (kvdBufferOf c opts ++ (alignPadOf c opts ++ sgdBufferOf c)))))
        ++ (levelChunksOf gbbl c opts).flatten := by
    simp [outputBytes, List.append_assoc]
  rw [hassoc, List.length_append, prefixFull_length]

/-! ## Level-index entry extraction -/

theorem entriesFlatten_drop (pairs : List (KTX2Level × Nat)) (R : List Nat)
    (i : Nat) (hi : i < pairs.length) :
    ((pairs.map levelIndexEntryBytes).flatten ++ R).drop (24 * i)
      = levelIndexEntryBytes (pairs.getD i (defaultLevel, 0))
        ++ (((pairs.drop (i + 1)).map levelIndexEntryBytes).flatten ++ R) := by
  induction pairs generalizing R i with
  | nil => simp at hi
  | cons p ps ih =>
      match i with
      | 0 => simp [List.flatten_cons, List.append_assoc]
      | i + 1 =>
          have h24 : 24 * (i + 1) = 24 + 24 * i := by ring
          simp only [List.map_cons, List.flatten_cons, List.getD_cons_succ,
            List.drop_succ_cons]
          rw [h24, List.append_assoc,
            drop_append_of_len_add _ (levelIndexEntryBytes_length p)]
          exact ih R i (by simpa using hi)

theorem zip_getD (ls : List KTX2Level) (offs : List Nat) (i : Nat)
    (h1 : i < ls.length) (h2 : i < offs.length) :
    (ls.zip offs).getD i (defaultLevel, 0)
      = (ls.getD i defaultLevel, offs.getD i 0) := by
  have hz : i < (ls.zip offs).length := by simp [List.length_zip]; omega
  rw [List.getD_eq_getElem _ _ hz, List.getElem_zip,
    List.getD_eq_getElem _ _ h1, List.getD_eq_getElem _ _ h2]

/-- The output buffer, cut at the level-index entry of original index `i`:
u64 offset (stored through the 32-bit array, hence mod 2^32), u64 byte
length, u64 uncompressed byte length. -/
theorem outputBytes_levelIndex_entry (gbbl : KTX2Container → Nat)
    (c : KTX2Container) (opts : WriteOptions) (i : Nat)
    (hi : i < c.levels.length) :
    ∃ R : List Nat,
      (outputBytes gbbl c opts).drop (80 + 24 * i)
        = u64LE ((levelOffsetsOf gbbl c opts).getD i 0 % 4294967296)
          ++ (u64LE (c.levels.getD i defaultLevel).levelData.length
            ++ (u64LE (c.levels.getD i defaultLevel).uncompressedByteLength
              ++ R)) := by
  have hdrop : (outputBytes gbbl c opts).drop (80 + 24 * i)
      = ((outputBytes gbbl c opts).drop 80).drop (24 * i) := by
    rw [List.drop_drop]
  have hlen : i < (c.levels.zip (levelOffsetsOf gbbl c opts)).length := by
    simp [List.length_zip, levelOffsetsOf_length]; omega
  rw [hdrop, outputBytes_drop80, levelIndexBytesOf,
    entriesFlatten_drop _ _ i hlen,
    zip_getD _ _ i hi (by rw [levelOffsetsOf_length]; exact hi)]
  exact ⟨(List.map levelIndexEntryBytes
        (List.drop (i + 1) (c.levels.zip (levelOffsetsOf gbbl c opts)))).flatten
      ++ (dfdBytesOf c ++ (kvdBufferOf c opts ++ (alignPadOf c opts
        ++ (sgdBufferOf c ++ (levelChunksOf gbbl c opts).flatten)))),
    by simp [levelIndexEntryBytes, List.append_assoc]⟩

theorem readLEAt_u64 {l R : List Nat} {pos n : Nat}
    (hd : l.drop pos = u64LE n ++ R) : readLEAt l pos 8 = n % 2 ^ 64 := by
  have h := readLEAt_field l R pos 8 n hd
  simpa using h

theorem readLEAt_u32 {l R : List Nat} {pos n : Nat}
    (hd : l.drop pos = u32LE n ++ R) : readLEAt l pos 4 = n % 2 ^ 32 := by
  have h := readLEAt_field l R pos 4 n hd
  simpa using h

/-- The packing invariant carried over to original index order: each level's
untruncated offset is at or after the level-data start, the payload fits in
the buffer, slicing the level-data region at the offset recovers the payload,
and the offset is aligned whenever a level alignment is in force. -/
theorem levelOffsetsOf_spec (gbbl : KTX2Container → Nat) (c : KTX2Container)
    (opts : WriteOptions) (i : Nat) (hi : i < c.levels.length) :
    levelDataStartOf c opts ≤ (levelOffsetsOf gbbl c opts).getD i 0 ∧
    (levelOffsetsOf gbbl c opts).getD i 0
        + (c.levels.getD i defaultLevel).levelData.length
      ≤ (outputBytes gbbl c opts).length ∧
    (((levelChunksOf gbbl c opts).flatten).drop
          ((levelOffsetsOf gbbl c opts).getD i 0 - levelDataStartOf c opts)).take
        (c.levels.getD i defaultLevel).levelData.length
      = (c.levels.getD i defaultLevel).levelData ∧
    (levelAlignOf gbbl c ≠ 0 →
      (levelOffsetsOf gbbl c opts).getD i 0 % levelAlignOf gbbl c = 0) := by
  have hj : c.levels.length - 1 - i < c.levels.reverse.length := by
    rw [List.length_reverse]; omega
  have hoffs_len : (packRev (levelAlignOf gbbl c) c.levels.reverse
      (levelDataStartOf c opts)).2.1.length = c.levels.length := by
    rw [packRev_offs_length, List.length_reverse]
  have h1 : (levelOffsetsOf gbbl c opts).getD i 0
      = (packRev (levelAlignOf gbbl c) c.levels.reverse
          (levelDataStartOf c opts)).2.1.getD (c.levels.length - 1 - i) 0 := by
    rw [levelOffsetsOf, packOf, getD_reverse _ i 0 (by rw [hoffs_len]; omega),
      hoffs_len]
  have h2 : c.levels.reverse.getD (c.levels.length - 1 - i) defaultLevel
      = c.levels.getD i defaultLevel := by
    rw [getD_reverse _ _ _ (by omega)]
    congr 1
    omega
  obtain ⟨hs1, hs2, hs3, hs4⟩ := packRev_spec (levelAlignOf gbbl c)
    c.levels.reverse (levelDataStartOf c opts) (c.levels.length - 1 - i) hj
  rw [h2] at hs2 hs3
  have hfin := packRev_flatten_length (levelAlignOf gbbl c) c.levels.reverse
    (levelDataStartOf c opts)
  have hlen := outputBytes_length gbbl c opts
  refine ⟨by rw [h1]; exact hs1, ?_, ?_, ?_⟩
  · rw [h1, hlen]
    have : ((levelChunksOf gbbl c opts).flatten).length
        = ((packRev (levelAlignOf gbbl c) c.levels.reverse
            (levelDataStartOf c opts)).1.flatten).length := by
      rw [levelChunksOf, packOf]
    omega
  · rw [h1, levelChunksOf, packOf]
    exact hs3
  · rw [h1]; exact hs4

/-- The output buffer cut at byte 48, exposing the six offset/length header
fields written at offsets 48–79. -/
theorem outputBytes_header_split (gbbl : KTX2Container → Nat)
    (c : KTX2Container) (opts : WriteOptions) :
    ∃ A R : List Nat,
      outputBytes gbbl c opts
        = A ++ (u32LE (dfdByteOffsetOf c) ++ (u32LE (dfdBytesOf c).length
          ++ (u32LE (kvdByteOffsetOf c opts)
            ++ (u32LE (kvdBufferOf c opts).length
              ++ (u64LE (if (sgdBufferOf c).length > 0 then
                    sgdByteOffsetOf c opts else 0)
                ++ (u64LE (sgdBufferOf c).length ++ R))))))
        ∧ A.length = 48 := by
  refine ⟨KTX2_ID ++ (u32LE c.vkFormat ++ (u32LE c.typeSize
      ++ (u32LE c.pixelWidth ++ (u32LE c.pixelHeight ++ (u32LE c.pixelDepth
        ++ (u32LE c.layerCount ++ (u32LE c.faceCount
          ++ (u32LE c.levels.length ++ u32LE c.supercompressionScheme)))))))),
    levelIndexBytesOf gbbl c opts ++ (dfdBytesOf c ++ (kvdBufferOf c opts
      ++ (alignPadOf c opts
        ++ (sgdBufferOf c ++ (levelChunksOf gbbl c opts).flatten)))), ?_, ?_⟩
  · simp [outputBytes, headerBytesOf, List.append_assoc]
  · simp [u32LE_length, KTX2_ID]

/-- All planned section offsets and lengths are bounded by the level-data
start (hence by the total buffer length). -/
theorem layout_le_start (c : KTX2Container) (opts : WriteOptions) :
    kvdByteOffsetOf c opts + (kvdBufferOf c opts).length
        ≤ levelDataStartOf c opts
      ∧ sgdByteOffsetOf c opts ≤ levelDataStartOf c opts
      ∧ (sgdBufferOf c).length ≤ levelDataStartOf c opts := by
  by_cases h : (sgdBufferOf c).length = 0
  · have hz := sgdByteOffsetOf_zero c opts h
    simp only [levelDataStartOf, hz, eq_self_iff_true, if_true, h]
    omega
  · have hsp := sgdByteOffsetOf_pos_spec c opts (Nat.pos_of_ne_zero h)
    have hOffPos : sgdByteOffsetOf c opts ≠ 0 := by omega
    simp only [levelDataStartOf]
    rw [if_neg hOffPos]
    omega

/-! ## Order theory for the key sort -/

theorem lexLt_asymm : ∀ x y : List Nat,
    lexLt x y = true → lexLt y x = true → False
  | [], [] => by simp [lexLt]
  | [], _ :: _ => by simp [lexLt]
  | _ :: _, [] => by simp [lexLt]
  | a :: as, b :: bs => by
      simp only [lexLt, Bool.or_eq_true, Bool.and_eq_true, decide_eq_true_eq]
      rintro (hab | ⟨hab, h1⟩) (hba | ⟨hba, h2⟩)
      · omega
      · omega
      · omega
      · exact lexLt_asymm as bs h1 h2

theorem lexLt_total : ∀ x y : List Nat,
    lexLt x y = true ∨ x = y ∨ lexLt y x = true
  | [], [] => Or.inr (Or.inl rfl)
  | [], _ :: _ => Or.inl (by simp [lexLt])
  | _ :: _, [] => Or.inr (Or.inr (by simp [lexLt]))
  | a :: as, b :: bs => by
      rcases Nat.lt_trichotomy a b with h | h | h
      · exact Or.inl (by simp [lexLt, h])
      · subst h
        rcases lexLt_total as bs with h1 | h1 | h1
        · exact Or.inl (by simp [lexLt, h1])
        · exact Or.inr (Or.inl (by rw [h1]))
        · exact Or.inr (Or.inr (by simp [lexLt, h1]))
      · exact Or.inr (Or.inr (by simp [lexLt, h]))

theorem lexLt_trans : ∀ x y z : List Nat,
    lexLt x y = true → lexLt y z = true → lexLt x z = true
  | [], [], [] => by simp [lexLt]
  | [], [], _ :: _ => by simp [lexLt]
  | [], _ :: _, [] => by simp [lexLt]
  | [], _ :: _, _ :: _ => by simp [lexLt]
  | _ :: _, [], [] => by simp [lexLt]
  | _ :: _, [], _ :: _ => by simp [lexLt]
  | _ :: _, _ :: _, [] => by simp [lexLt]
  | a :: as, b :: bs, c :: cs => by
      simp only [lexLt, Bool.or_eq_true, Bool.and_eq_true, decide_eq_true_eq]
      rintro (h1 | ⟨hab, h1⟩) (h2 | ⟨hbc, h2⟩)
      · left; omega
      · left; omega
      · left; omega
      · right; exact ⟨by omega, lexLt_trans as bs cs h1 h2⟩

instance : IsTotal (JsString × KVValue) kvLe := by
  constructor
  intro a b
  unfold kvLe
  cases hba : lexLt (utf16 b.1) (utf16 a.1) with
  | false => exact Or.inl rfl
  | true =>
      cases hab : lexLt (utf16 a.1) (utf16 b.1) with
      | false => exact Or.inr rfl
      | true => exact absurd (lexLt_asymm _ _ hab hba) (fun h => h)

instance : IsTrans (JsString × KVValue) kvLe := by
  constructor
  intro a b c hab hbc
  unfold kvLe at hab hbc ⊢
  cases hca : lexLt (utf16 c.1) (utf16 a.1) with
  | false => rfl
  | true =>
      exfalso
      rcases lexLt_total (utf16 a.1) (utf16 b.1) with h | h | h
      · exact absurd (lexLt_trans _ _ _ hca h) (by rw [hbc]; simp)
      · rw [← h] at hbc
        rw [hbc] at hca
        exact Bool.false_ne_true hca
      · rw [hab] at h
        exact Bool.false_ne_true h

theorem sortKV_sorted (l : List (JsString × KVValue)) :
    List.Pairwise kvLe (sortKV l) :=
  List.sorted_insertionSort kvLe l

theorem sortKV_perm (l : List (JsString × KVValue)) :
    (sortKV l).Perm l :=
  List.perm_insertionSort kvLe l

/-- With pairwise-distinct keys (distinct as JS strings, i.e. distinct
UTF-16 unit sequences), the sorted entry list is strictly ascending in
UTF-16 code-unit (JS ordinal) key order. -/
theorem sortKV_strict (l : List (JsString × KVValue))
    (h : (l.map (fun e => utf16 e.1)).Nodup) :
    List.Pairwise (fun a b => lexLt (utf16 a.1) (utf16 b.1) = true) (sortKV l) := by
  have hperm := sortKV_perm l
  have hnd : ((sortKV l).map (fun e => utf16 e.1)).Nodup :=
    ((hperm.map (fun e => utf16 e.1)).nodup_iff).mpr h
  have hne : List.Pairwise (fun a b => utf16 a.1 ≠ utf16 b.1) (sortKV l) :=
    List.pairwise_map.mp hnd
  have hsorted : List.Pairwise kvLe (sortKV l) := sortKV_sorted l
  refine (hsorted.and hne).imp ?_
  rintro a b ⟨hle, hneq⟩
  rcases lexLt_total (utf16 a.1) (utf16 b.1) with h1 | h1 | h1
  · exact h1
  · exact absurd h1 hneq
  · exact absurd h1 (by unfold kvLe at hle; rw [hle]; simp)

/-- JS object update `{...obj, k: v}` always contains the binding `(k, v)`. -/
theorem mem_setKey (l : List (JsString × KVValue)) (k : JsString) (v : KVValue) :
    (k, v) ∈ setKey l k v := by
  induction l with
  | nil => simp [setKey]
  | cons e rest ih =>
      obtain ⟨k0, v0⟩ := e
      by_cases h : k0 = k
      · subst h
        simp [setKey]
      · simp [setKey, h, ih]

/-! ## Case analysis of `write` -/

theorem write_eq_ok (gbbl : KTX2Container → Nat) (c : KTX2Container)
    (opts : WriteOptions) (dfd : KTX2DFDBlock) (dims : List Nat)
    (h1 : c.dataFormatDescriptor = [dfd])
    (h2 : dfd.descriptorType = KHR_DF_KHR_DESCRIPTORTYPE_BASICFORMAT)
    (h3 : dfd.texelBlockDimension = TexelBlockDimension.vec dims) :
    write gbbl c opts = Except.ok (outputBytes gbbl c opts) := by
  simp [write, h1, h2, h3]

theorem write_ok_elim (gbbl : KTX2Container → Nat) (c : KTX2Container)
    (opts : WriteOptions) (buf : List Nat)
    (h : write gbbl c opts = Except.ok buf) : buf = outputBytes gbbl c opts := by
  rcases hd : c.dataFormatDescriptor with _ | ⟨dfd, _ | ⟨d2, r2⟩⟩ <;>
    simp only [write, hd] at h
  · exact Except.noConfusion h
  · by_cases ht : dfd.descriptorType = KHR_DF_KHR_DESCRIPTORTYPE_BASICFORMAT
    · rw [if_pos ht] at h
      rcases htbd : dfd.texelBlockDimension with n | dims <;> rw [htbd] at h
      · exact Except.noConfusion h
      · injection h with h
        exact h.symm
    · rw [if_neg ht] at h
      exact Except.noConfusion h
  · exact Except.noConfusion h

/-- The structural DFD check of `write.ts` lines 98–103: exactly one block,
of the basic-format descriptor type. -/
def dfdStructOk (c : KTX2Container) : Bool :=
  match c.dataFormatDescriptor with
  | [dfd] => dfd.descriptorType == KHR_DF_KHR_DESCRIPTORTYPE_BASICFORMAT
  | _ => false

/-- The `Array.isArray(dfd.texelBlockDimension)` check of `write.ts`
lines 122–124 (vacuously true when the structural check already failed,
since the code throws before reaching it). -/
def texelBlockDimensionIsArray (c : KTX2Container) : Bool :=
  match c.dataFormatDescriptor with
  | [dfd] =>
    match dfd.texelBlockDimension with
    | TexelBlockDimension.vec _ => true
    | TexelBlockDimension.legacy _ => false
  | _ => true

theorem write_isOk_eq (gbbl : KTX2Container → Nat) (c : KTX2Container)
    (opts : WriteOptions) :
    (write gbbl c opts).isOk
      = (dfdStructOk c && texelBlockDimensionIsArray c) := by
  rcases hd : c.dataFormatDescriptor with _ | ⟨dfd, _ | ⟨d2, r2⟩⟩ <;>
    simp only [write, dfdStructOk, texelBlockDimensionIsArray, hd]
  · simp [Except.isOk, Except.toBool]
  · by_cases ht : dfd.descriptorType = KHR_DF_KHR_DESCRIPTORTYPE_BASICFORMAT
    · rw [if_pos ht]
      rcases htbd : dfd.texelBlockDimension with n | dims
      · simp [Except.isOk, Except.toBool, ht]
      · simp [Except.isOk, Except.toBool, ht]
    · rw [if_neg ht]
      simp [Except.isOk, Except.toBool, ht]
  · simp [Except.isOk, Except.toBool]

/-! ## Further placement lemmas -/

theorem outputBytes_drop_kvdEnd (gbbl : KTX2Container → Nat)
    (c : KTX2Container) (opts : WriteOptions) :
    (outputBytes gbbl c opts).drop
        (kvdByteOffsetOf c opts + (kvdBufferOf c opts).length)
      = alignPadOf c opts
        ++ (sgdBufferOf c ++ (levelChunksOf gbbl c opts).flatten) := by
  have hassoc : outputBytes gbbl c opts
      = ((((KTX2_ID ++ headerBytesOf c opts) ++ levelIndexBytesOf gbbl c opts)
          ++ dfdBytesOf c) ++ kvdBufferOf c opts)
        ++ (alignPadOf c opts
          ++ (sgdBufferOf c ++ (levelChunksOf gbbl c opts).flatten)) := by
    simp [outputBytes, List.append_assoc]
  rw [hassoc]
  refine drop_append_of_len _ ?_
  have h1 : KTX2_ID.length = 12 := rfl
  have h2 := headerBytesOf_length c opts
  have h3 := levelIndexBytesOf_length gbbl c opts
  simp only [List.length_append]
  rw [kvdByteOffsetOf_eq]
  omega

theorem outputBytes_drop_sgd (gbbl : KTX2Container → Nat) (c : KTX2Container)
    (opts : WriteOptions) (h : 0 < (sgdBufferOf c).length) :
    (outputBytes gbbl c opts).drop (sgdByteOffsetOf c opts)
      = sgdBufferOf c ++ (levelChunksOf gbbl c opts).flatten := by
  have hsp := sgdByteOffsetOf_pos_spec c opts h
  have hOffPos : sgdByteOffsetOf c opts ≠ 0 := by omega
  have hpad : (alignPadOf c opts).length
      = sgdByteOffsetOf c opts
        - (kvdByteOffsetOf c opts + (kvdBufferOf c opts).length) := by
    simp [alignPadOf, Nat.pos_of_ne_zero hOffPos]
  have hassoc : outputBytes gbbl c opts
      = (((((KTX2_ID ++ headerBytesOf c opts) ++ levelIndexBytesOf gbbl c opts)
          ++ dfdBytesOf c) ++ kvdBufferOf c opts) ++ alignPadOf c opts)
        ++ (sgdBufferOf c ++ (levelChunksOf gbbl c opts).flatten) := by
    simp [outputBytes, List.append_assoc]
  rw [hassoc]
  refine drop_append_of_len _ ?_
  rw [kvdByteOffsetOf_eq] at hsp hpad
  have h1 : KTX2_ID.length = 12 := rfl
  have h2 := headerBytesOf_length c opts
  have h3 := levelIndexBytesOf_length gbbl c opts
  simp only [List.length_append, hpad]
  omega

/-- Offsets are antitone in original index order: the level of larger index
(smaller mip) is stored at an equal or smaller address. -/
theorem levelOffsetsOf_antitone (gbbl : KTX2Container → Nat)
    (c : KTX2Container) (opts : WriteOptions) (i j : Nat) (hij : i ≤ j)
    (hj : j < c.levels.length) :
    (levelOffsetsOf gbbl c opts).getD j 0
      ≤ (levelOffsetsOf gbbl c opts).getD i 0 := by
  have hi : i < c.levels.length := lt_of_le_of_lt hij hj
  have hoffs_len : (packRev (levelAlignOf gbbl c) c.levels.reverse
      (levelDataStartOf c opts)).2.1.length = c.levels.length := by
    rw [packRev_offs_length, List.length_reverse]
  have h1 : (levelOffsetsOf gbbl c opts).getD i 0
      = (packRev (levelAlignOf gbbl c) c.levels.reverse
          (levelDataStartOf c opts)).2.1.getD (c.levels.length - 1 - i) 0 := by
    rw [levelOffsetsOf, packOf, getD_reverse _ i 0 (by rw [hoffs_len]; omega),
      hoffs_len]
  have h2 : (levelOffsetsOf gbbl c opts).getD j 0
      = (packRev (levelAlignOf gbbl c) c.levels.reverse
          (levelDataStartOf c opts)).2.1.getD (c.levels.length - 1 - j) 0 := by
    rw [levelOffsetsOf, packOf, getD_reverse _ j 0 (by rw [hoffs_len]; omega),
      hoffs_len]
  rw [h1, h2]
  exact packRev_offs_mono _ _ _ _ _ (by omega) (by rw [List.length_reverse]; omega)

/-! ## Concrete containers for witnesses and counterexamples -/

/-- A minimal valid basic-format DFD block (no samples). -/
def dfd0 : KTX2DFDBlock :=
  { vendorId := 0, descriptorType := 0, versionNumber := 2, colorModel := 1,
    colorPrimaries := 1, transferFunction := 2, flags := 0,
    texelBlockDimension := TexelBlockDimension.vec [0, 0, 0, 0],
    bytesPlane := [1, 0, 0, 0, 0, 0, 0, 0], samples := [] }

/-- Container builder for the concrete scenarios below. -/
def mkContainer (dfd : KTX2DFDBlock) (levels : List KTX2Level)
    (kv : List (JsString × KVValue)) (gd : Option KTX2GlobalData)
    (scheme : Nat) : KTX2Container :=
  { vkFormat := 0, typeSize := 1, pixelWidth := 4, pixelHeight := 4,
    pixelDepth := 0, layerCount := 0, faceCount := 1,
    supercompressionScheme := scheme, levels := levels,
    dataFormatDescriptor := [dfd], keyValue := kv, globalData := gd }

/-- A block-byte-length function (the external `getBlockByteLength` helper)
returning 1, giving level alignment lcm(1,4) = 4. -/
def gbblOne : KTX2Container → Nat := fun _ => 1

/-- Scenario: caller supplies an explicit `KTXwriter` entry. -/
def cWriter : KTX2Container :=
  mkContainer dfd0 [{ levelData := [9, 9, 9, 9], uncompressedByteLength := 4 }]
    [(ktxWriterKey, KVValue.text (jsStr (r"CUSTOM-WRITER-ENTRY-VALUE")))]
    none 0

/-- Scenario: `texelBlockDimension` is an array of length 3 (not 4). -/
def cTbd3 : KTX2Container :=
  mkContainer
    { dfd0 with texelBlockDimension := TexelBlockDimension.vec [1, 1, 1] }
    [{ levelData := [1, 2, 3, 4], uncompressedByteLength := 4 }] [] none 0

/-- Scenario: two keys, one supplementary-plane (U+10000), one in the
upper BMP (U+FFFD): UTF-16 code-unit order and UTF-8 byte order disagree. -/
def cAstral : KTX2Container :=
  mkContainer dfd0 []
    [([0x10000], KVValue.bytes [1]), ([0xFFFD], KVValue.bytes [2])] none 0

/-- The spec §8 scenario: one 4-byte level, `{"Orientation": "S"}`,
no global data, scheme NONE. -/
def c7 : KTX2Container :=
  mkContainer dfd0 [{ levelData := [1, 2, 3, 4], uncompressedByteLength := 4 }]
    [(jsStr (r"Orientation"), KVValue.text (jsStr (r"S")))] none 0

/-- Scenario: global data with one image description and all four payload
blobs empty. -/
def gd0 : KTX2GlobalData :=
  { endpointCount := 1, selectorCount := 2,
    imageDescs := [⟨1, 2, 3, 4, 5⟩],
    endpointsData := [], selectorsData := [], tablesData := [],
    extendedData := [] }

/-- Scenario: container with supercompression (scheme 1) and global data. -/
def cSgd : KTX2Container :=
  mkContainer dfd0 [{ levelData := [1, 2, 3, 4], uncompressedByteLength := 8 }]
    [] (some gd0) 1

/-- Scenario: two small levels, scheme NONE. -/
def cTwo : KTX2Container :=
  mkContainer dfd0
    [{ levelData := [1, 2, 3, 4], uncompressedByteLength := 4 },
     { levelData := [5, 6], uncompressedByteLength := 2 }] [] none 0

/-- Level-data byte length that pushes the base level's offset to exactly
2^32 (the level-data region starts at byte 156 in `cBig`). -/
def bigLen : Nat := 4294967296 - 156

/-- Scenario: the second (smaller-index-last) level is ~4 GiB, so the base
level's physical offset is exactly 2^32 and its stored u64 offset field,
having passed through the `Uint32Array`, reads back 0. -/
def cBig : KTX2Container :=
  mkContainer dfd0
    [{ levelData := [7], uncompressedByteLength := 1 },
     { levelData := List.replicate bigLen 0, uncompressedByteLength := bigLen }]
    [] none 1

/-! ## Claims -/

/-- C1, counterexample: with `keepWriter = false` and a caller-supplied
`KTXwriter` entry, the output does not contain the caller's value anywhere —
the auto-generated library string is serialized instead. (The object spread
`{...keyValue, ...(!keepWriter && {KTXwriter})}` puts the generated entry
second, so it overrides the caller's.) -/
theorem claimC1_counterexample :
    write gbblOne cWriter ⟨false⟩
        = Except.ok (outputBytes gbblOne cWriter ⟨false⟩)
      ∧ ¬ (encodeText (jsStr (r"CUSTOM-WRITER-ENTRY-VALUE"))
            <:+: outputBytes gbblOne cWriter ⟨false⟩)
      ∧ (encodeText KTX_WRITER <:+: outputBytes gbblOne cWriter ⟨false⟩)
      ∧ cWriter.keyValue
        = [(ktxWriterKey, KVValue.text (jsStr (r"CUSTOM-WRITER-ENTRY-VALUE")))] := by
  refine ⟨by rfl, ?_, ?_, by rfl⟩
  · set_option maxRecDepth 8000 in decide
  · set_option maxRecDepth 8000 in decide

/-- C1 (amended): with `keepWriter = false` the serialized KVD always
contains the auto-generated `KTXwriter` entry (library name + version),
overriding any caller-supplied value; caller-supplied `KTXwriter` values
survive only when `keepWriter = true`. -/
theorem claimC1_theorem (gbbl : KTX2Container → Nat) (c : KTX2Container)
    (opts : WriteOptions) (buf : List Nat) (h1 : opts.keepWriter = false)
    (h2 : write gbbl c opts = Except.ok buf) :
    kvEntryBytes (ktxWriterKey, KVValue.text KTX_WRITER) <:+: buf := by
  have hbuf := write_ok_elim _ _ _ _ h2
  subst hbuf
  have hmg : mergedKeyValue c.keyValue opts.keepWriter
      = setKey c.keyValue ktxWriterKey (KVValue.text KTX_WRITER) := by
    rw [mergedKeyValue, h1]
    rfl
  have hmem : (ktxWriterKey, KVValue.text KTX_WRITER)
      ∈ mergedKeyValue c.keyValue opts.keepWriter := by
    rw [hmg]
    exact mem_setKey _ _ _
  have hmem2 : (ktxWriterKey, KVValue.text KTX_WRITER)
      ∈ sortKV (mergedKeyValue c.keyValue opts.keepWriter) :=
    ((sortKV_perm _).mem_iff).mpr hmem
  have hbytes : kvEntryBytes (ktxWriterKey, KVValue.text KTX_WRITER)
      ∈ (sortKV (mergedKeyValue c.keyValue opts.keepWriter)).map kvEntryBytes :=
    List.mem_map_of_mem _ hmem2
  have hinf1 : kvEntryBytes (ktxWriterKey, KVValue.text KTX_WRITER)
      <:+: kvdBufferOf c opts := by
    rw [kvdBufferOf]
    exact infixOfMemFlatten hbytes
  have hinf2 : kvdBufferOf c opts <:+: outputBytes gbbl c opts :=
    ⟨KTX2_ID ++ headerBytesOf c opts ++ levelIndexBytesOf gbbl c opts
        ++ dfdBytesOf c,
      alignPadOf c opts ++ (sgdBufferOf c ++ (levelChunksOf gbbl c opts).flatten),
      by simp [outputBytes, List.append_assoc]⟩
  exact hinf1.trans hinf2

/-- C1, witness: the amended theorem at the concrete §8 scenario. -/
theorem claimC1_witness :
    (⟨false⟩ : WriteOptions).keepWriter = false
      ∧ write gbblOne c7 ⟨false⟩ = Except.ok (outputBytes gbblOne c7 ⟨false⟩)
      ∧ kvEntryBytes (ktxWriterKey, KVValue.text KTX_WRITER)
          <:+: outputBytes gbblOne c7 ⟨false⟩ :=
  ⟨rfl, by rfl, claimC1_theorem gbblOne c7 ⟨false⟩ _ rfl (by rfl)⟩

/-- C2, counterexample: a `texelBlockDimension` array of length 3 (not 4)
does not cause an error — serialization succeeds, refuting the claim that
any non-4-element `texelBlockDimension` throws. -/
theorem claimC2_counterexample :
    (write gbblOne cTbd3 ⟨false⟩).isOk = true
      ∧ cTbd3.dataFormatDescriptor.length = 1
      ∧ (cTbd3.dataFormatDescriptor.getD 0 dfd0).texelBlockDimension
        = TexelBlockDimension.vec [1, 1, 1] := by
  refine ⟨by rfl, by rfl, by rfl⟩

/-- C2 (amended): `write` fails (aborting with no partial output, the error
monad returns no buffer) if and only if (a) the container does not hold
exactly one basic-format DFD block, or (b) `texelBlockDimension` is not an
array (legacy scalar form); an array of any length is accepted, and no other
input makes `write` fail. -/
theorem claimC2_theorem (gbbl : KTX2Container → Nat) (c : KTX2Container)
    (opts : WriteOptions) :
    (write gbbl c opts).isOk
      = (dfdStructOk c && texelBlockDimensionIsArray c) :=
  write_isOk_eq gbbl c opts

/-- C6, counterexample: with keys U+10000 (UTF-8 `F0 90 80 80`) and U+FFFD
(UTF-8 `EF BF BD`), the serialized entry order puts U+10000 first because the
JS comparator orders UTF-16 code units (surrogates `D800 DC00` < `FFFD`),
yet its UTF-8 key bytes are byte-wise greater — the output is not in
ascending UTF-8 byte order. -/
theorem claimC6_counterexample :
    (sortKV (mergedKeyValue cAstral.keyValue true)).map (fun e => encodeText e.1)
        = [[0xF0, 0x90, 0x80, 0x80], [0xEF, 0xBF, 0xBD]]
      ∧ lexLt [0xEF, 0xBF, 0xBD] [0xF0, 0x90, 0x80, 0x80] = true
      ∧ kvdBufferOf cAstral ⟨true⟩
        = kvEntryBytes ([0x10000], KVValue.bytes [1])
          ++ kvEntryBytes ([0xFFFD], KVValue.bytes [2]) := by
  refine ⟨by decide, by decide, by decide⟩

/-- C6 (amended): for every key/value mapping whose keys are pairwise
distinct as JS strings, the serialized KVD entries appear in strictly
ascending UTF-16 code-unit (JS ordinal, locale-independent) key order — which
coincides with UTF-8 byte order only for keys without supplementary-plane
characters; the KVD buffer is exactly the concatenation of the sorted
entries, a permutation of the merged mapping. -/
theorem claimC6_theorem (c : KTX2Container) (opts : WriteOptions)
    (h : ((mergedKeyValue c.keyValue opts.keepWriter).map
        (fun e => utf16 e.1)).Nodup) :
    List.Pairwise (fun a b => lexLt (utf16 a.1) (utf16 b.1) = true)
        (sortKV (mergedKeyValue c.keyValue opts.keepWriter))
      ∧ kvdBufferOf c opts
        = ((sortKV (mergedKeyValue c.keyValue opts.keepWriter)).map
            kvEntryBytes).flatten
      ∧ (sortKV (mergedKeyValue c.keyValue opts.keepWriter)).Perm
        (mergedKeyValue c.keyValue opts.keepWriter) :=
  ⟨sortKV_strict _ h, rfl, sortKV_perm _⟩

/-- C6, witness: the amended theorem at the §8 scenario key/value map. -/
theorem claimC6_witness :
    ((mergedKeyValue c7.keyValue (⟨false⟩ : WriteOptions).keepWriter).map
        (fun e => utf16 e.1)).Nodup
      ∧ (List.Pairwise (fun a b => lexLt (utf16 a.1) (utf16 b.1) = true)
          (sortKV (mergedKeyValue c7.keyValue (⟨false⟩ : WriteOptions).keepWriter))
        ∧ kvdBufferOf c7 ⟨false⟩
          = ((sortKV (mergedKeyValue c7.keyValue
              (⟨false⟩ : WriteOptions).keepWriter)).map kvEntryBytes).flatten
        ∧ (sortKV (mergedKeyValue c7.keyValue
            (⟨false⟩ : WriteOptions).keepWriter)).Perm
          (mergedKeyValue c7.keyValue (⟨false⟩ : WriteOptions).keepWriter)) :=
  ⟨by decide, claimC6_theorem c7 ⟨false⟩ (by decide)⟩

/-- C7, counterexample: in the §8 scenario the two sorted KVD entries appear
in the order `KTXwriter` then `Orientation` (since `K` < `O` byte-wise and the
sort is ascending), not `Orientation` then `KTXwriter` as the claim states. -/
theorem claimC7_counterexample :
    (sortKV (mergedKeyValue c7.keyValue false)).map Prod.fst
        = [ktxWriterKey, jsStr (r"Orientation")]
      ∧ ktxWriterKey ≠ jsStr (r"Orientation") := by
  refine ⟨by decide, by decide⟩

/-- C7 (amended): the §8 scenario (one 4-byte level, `{"Orientation": "S"}`,
no global data, scheme NONE, `keepWriter = false`) produces: header level
count 1; a KVD with exactly two sorted entries, `KTXwriter` first then
`Orientation`; SGD offset and length fields 0; and a level index entry whose
offset (184) equals `kvdOffset + kvdSize` rounded up to the configured level
alignment lcm(blockByteLength, 4). -/
theorem claimC7_theorem :
    write gbblOne c7 ⟨false⟩ = Except.ok (outputBytes gbblOne c7 ⟨false⟩)
      ∧ readLEAt (outputBytes gbblOne c7 ⟨false⟩) 40 4 = 1
      ∧ kvdBufferOf c7 ⟨false⟩
        = kvEntryBytes (ktxWriterKey, KVValue.text KTX_WRITER)
          ++ kvEntryBytes (jsStr (r"Orientation"), KVValue.text (jsStr (r"S")))
      ∧ readLEAt (outputBytes gbblOne c7 ⟨false⟩) 64 8 = 0
      ∧ readLEAt (outputBytes gbblOne c7 ⟨false⟩) 72 8 = 0
      ∧ readLEAt (outputBytes gbblOne c7 ⟨false⟩) 80 8 = 184
      ∧ kvdByteOffsetOf c7 ⟨false⟩ + (kvdBufferOf c7 ⟨false⟩).length = 184
      ∧ 184 + getPadding 184 (leastCommonMultiple (gbblOne c7) 4) = 184
      ∧ levelOffsetsOf gbblOne c7 ⟨false⟩ = [184] := by
  refine ⟨by rfl, by decide, by decide, by decide, by decide, by decide,
    by decide, by decide, by decide⟩

/-- C9: serialization is a pure deterministic function — two calls on equal
containers with equal options yield byte-identical results. -/
theorem claimC9_theorem (gbbl : KTX2Container → Nat) (c1 c2 : KTX2Container)
    (o1 o2 : WriteOptions) (hc : c1 = c2) (ho : o1 = o2) :
    write gbbl c1 o1 = write gbbl c2 o2 := by
  rw [hc, ho]

/-- C9, witness. -/
theorem claimC9_witness :
    c7 = c7 ∧ (⟨false⟩ : WriteOptions) = ⟨false⟩
      ∧ write gbblOne c7 ⟨false⟩ = write gbblOne c7 ⟨false⟩ :=
  ⟨rfl, rfl, claimC9_theorem gbblOne c7 c7 ⟨false⟩ ⟨false⟩ rfl rfl⟩

/-! ## The 2^32 truncation counterexample (claims C3/C10 support) -/

theorem packRev_two_zero (l1 l2 : KTX2Level) (cur : Nat) :
    (packRev 0 [l1, l2] cur).2.1 = [cur, cur + l1.levelData.length] := by
  simp [packRev]

theorem cBig_big_length :
    ((⟨List.replicate bigLen 0, bigLen⟩ : KTX2Level)).levelData.length = bigLen := by
  rw [show ((⟨List.replicate bigLen 0, bigLen⟩ : KTX2Level)).levelData
      = List.replicate bigLen 0 from rfl]
  exact List.length_replicate _ _

/-- In `cBig` the base level's untruncated physical offset is exactly 2^32. -/
theorem cBig_offsets : levelOffsetsOf gbblOne cBig ⟨true⟩ = [4294967296, 156] := by
  have halign : levelAlignOf gbblOne cBig = 0 := by rfl
  have hstart : levelDataStartOf cBig ⟨true⟩ = 156 := by rfl
  have hrev : cBig.levels.reverse
      = [⟨List.replicate bigLen 0, bigLen⟩, ⟨[7], 1⟩] := by rfl
  have h0 := packRev_two_zero (⟨List.replicate bigLen 0, bigLen⟩ : KTX2Level)
    ⟨[7], 1⟩ 156
  rw [cBig_big_length] at h0
  have hb : 156 + bigLen = 4294967296 := by norm_num [bigLen]
  rw [hb] at h0
  rw [levelOffsetsOf, packOf, halign, hstart, hrev, h0]
  rfl

/-- The base level's stored u64 offset field reads back 0 (truncated). -/
theorem cBig_read80 : readLEAt (outputBytes gbblOne cBig ⟨true⟩) 80 8 = 0 := by
  obtain ⟨R, hR⟩ := outputBytes_levelIndex_entry gbblOne cBig ⟨true⟩ 0 (by decide)
  rw [cBig_offsets] at hR
  norm_num at hR
  have h := readLEAt_u64 hR
  simpa using h

/-- The base level's stored u64 byteLength field reads back 1. -/
theorem cBig_read88 : readLEAt (outputBytes gbblOne cBig ⟨true⟩) 88 8 = 1 := by
  obtain ⟨R, hR⟩ := outputBytes_levelIndex_entry gbblOne cBig ⟨true⟩ 0 (by decide)
  simp only [Nat.mul_zero, Nat.add_zero] at hR
  have h88 : (outputBytes gbblOne cBig ⟨true⟩).drop 88
      = u64LE (cBig.levels.getD 0 defaultLevel).levelData.length
        ++ (u64LE (cBig.levels.getD 0 defaultLevel).uncompressedByteLength ++ R) := by
    have hd : (outputBytes gbblOne cBig ⟨true⟩).drop 88
        = ((outputBytes gbblOne cBig ⟨true⟩).drop 80).drop 8 := by
      rw [List.drop_drop]
    rw [hd, hR, drop_append_of_len _ (u64LE_length _)]
  have h := readLEAt_u64 h88
  simpa using h

theorem cBig_first_byte :
    ((outputBytes gbblOne cBig ⟨true⟩).drop 0).take 1 = [0xAB] := by
  simp only [List.drop_zero, outputBytes, KTX2_ID, List.cons_append,
    List.take_succ_cons, List.take_zero]

/-- C3, counterexample: in a container whose base level physically starts at
byte 2^32, the stored index entry for level 0 records offset 0 and byte
length 1, yet slicing the output at (0, 1) yields the identification tag byte
`0xAB`, not the level payload `[7]` — the claim fails without a size bound. -/
theorem claimC3_counterexample :
    write gbblOne cBig ⟨true⟩ = Except.ok (outputBytes gbblOne cBig ⟨true⟩)
      ∧ readLEAt (outputBytes gbblOne cBig ⟨true⟩) 80 8 = 0
      ∧ readLEAt (outputBytes gbblOne cBig ⟨true⟩) 88 8 = 1
      ∧ (cBig.levels.getD 0 defaultLevel).levelData = [7]
      ∧ ((outputBytes gbblOne cBig ⟨true⟩).drop 0).take 1 = [0xAB]
      ∧ ([0xAB] : List Nat) ≠ [7] :=
  ⟨write_eq_ok gbblOne cBig ⟨true⟩ dfd0 [0, 0, 0, 0] rfl rfl rfl,
    cBig_read80, cBig_read88, rfl, cBig_first_byte, by decide⟩

/-- C3 (amended): for every container whose serialized size stays below 2^32
(so the 32-bit offset store cannot truncate), the level-index entry at
original index `i` (24 bytes at position 80 + 24i: u64 offset, u64
byteLength, u64 uncompressedByteLength, little-endian) records the payload's
length and an offset whose slice reproduces `levels[i].levelData` exactly,
and offsets are antitone in index (last index packed first — physical
small-to-large order) while the table itself is indexed 0..N−1. -/
theorem claimC3_theorem (gbbl : KTX2Container → Nat) (c : KTX2Container)
    (opts : WriteOptions) (buf : List Nat)
    (hw : write gbbl c opts = Except.ok buf)
    (hfit : buf.length < 4294967296)
    (i j : Nat) (hi : i < c.levels.length) (hj : j < c.levels.length)
    (hij : i ≤ j) :
    readLEAt buf (80 + 24 * i + 8) 8
        = (c.levels.getD i defaultLevel).levelData.length
      ∧ readLEAt buf (80 + 24 * i + 16) 8
        = (c.levels.getD i defaultLevel).uncompressedByteLength % 2 ^ 64
      ∧ (buf.drop (readLEAt buf (80 + 24 * i) 8)).take
            (readLEAt buf (80 + 24 * i + 8) 8)
          = (c.levels.getD i defaultLevel).levelData
      ∧ readLEAt buf (80 + 24 * j) 8 ≤ readLEAt buf (80 + 24 * i) 8 := by
  have hbuf := write_ok_elim _ _ _ _ hw
  subst hbuf
  obtain ⟨R, hR⟩ := outputBytes_levelIndex_entry gbbl c opts i hi
  obtain ⟨hs1, hs2, hs3, _⟩ := levelOffsetsOf_spec gbbl c opts i hi
  have hoffi_lt : (levelOffsetsOf gbbl c opts).getD i 0 < 4294967296 := by
    omega
  have hmod : (levelOffsetsOf gbbl c opts).getD i 0 % 4294967296
      = (levelOffsetsOf gbbl c opts).getD i 0 := Nat.mod_eq_of_lt hoffi_lt
  have hread0 : readLEAt (outputBytes gbbl c opts) (80 + 24 * i) 8
      = (levelOffsetsOf gbbl c opts).getD i 0 := by
    have h := readLEAt_u64 hR
    rw [hmod] at h
    rw [h]
    exact Nat.mod_eq_of_lt (lt_trans hoffi_lt (by norm_num))
  have hR8 : (outputBytes gbbl c opts).drop (80 + 24 * i + 8)
      = u64LE (c.levels.getD i defaultLevel).levelData.length
        ++ (u64LE (c.levels.getD i defaultLevel).uncompressedByteLength ++ R) := by
    have hd : (outputBytes gbbl c opts).drop (80 + 24 * i + 8)
        = ((outputBytes gbbl c opts).drop (80 + 24 * i)).drop 8 := by
      rw [List.drop_drop]
    rw [hd, hR, drop_append_of_len _ (u64LE_length _)]
  have hR16 : (outputBytes gbbl c opts).drop (80 + 24 * i + 16)
      = u64LE (c.levels.getD i defaultLevel).uncompressedByteLength ++ R := by
    have hd : (outputBytes gbbl c opts).drop (80 + 24 * i + 16)
        = ((outputBytes gbbl c opts).drop (80 + 24 * i + 8)).drop 8 := by
      rw [List.drop_drop]
    rw [hd, hR8, drop_append_of_len _ (u64LE_length _)]
  have hread8 : readLEAt (outputBytes gbbl c opts) (80 + 24 * i + 8) 8
      = (c.levels.getD i defaultLevel).levelData.length := by
    have h := readLEAt_u64 hR8
    rw [h]
    exact Nat.mod_eq_of_lt (by omega)
  have hread16 : readLEAt (outputBytes gbbl c opts) (80 + 24 * i + 16) 8
      = (c.levels.getD i defaultLevel).uncompressedByteLength % 2 ^ 64 :=
    readLEAt_u64 hR16
  -- the slice at the recorded offset is the payload
  have hslice : ((outputBytes gbbl c opts).drop
        ((levelOffsetsOf gbbl c opts).getD i 0)).take
          (c.levels.getD i defaultLevel).levelData.length
      = (c.levels.getD i defaultLevel).levelData := by
    have hdec : (levelOffsetsOf gbbl c opts).getD i 0
        = levelDataStartOf c opts
          + ((levelOffsetsOf gbbl c opts).getD i 0 - levelDataStartOf c opts) := by
      omega
    have hdrop2 : (outputBytes gbbl c opts).drop
          ((levelOffsetsOf gbbl c opts).getD i 0)
        = ((levelChunksOf gbbl c opts).flatten).drop
            ((levelOffsetsOf gbbl c opts).getD i 0 - levelDataStartOf c opts) := by
      conv_lhs => rw [hdec]
      rw [← List.drop_drop, outputBytes_drop_levels]
    rw [hdrop2]
    exact hs3
  -- antitone offsets (smaller mips stored physically first)
  obtain ⟨ht1, ht2, _, _⟩ := levelOffsetsOf_spec gbbl c opts j hj
  obtain ⟨R2, hR2⟩ := outputBytes_levelIndex_entry gbbl c opts j hj
  have hoffj_lt : (levelOffsetsOf gbbl c opts).getD j 0 < 4294967296 := by
    omega
  have hreadj : readLEAt (outputBytes gbbl c opts) (80 + 24 * j) 8
      = (levelOffsetsOf gbbl c opts).getD j 0 := by
    have h := readLEAt_u64 hR2
    rw [Nat.mod_eq_of_lt hoffj_lt] at h
    rw [h]
    exact Nat.mod_eq_of_lt (lt_trans hoffj_lt (by norm_num))
  refine ⟨hread8, hread16, ?_, ?_⟩
  · rw [hread0, hread8]
    exact hslice
  · rw [hread0, hreadj]
    exact levelOffsetsOf_antitone gbbl c opts i j hij hj

set_option maxRecDepth 8000 in
/-- C3, witness: the amended theorem at the two-level container `cTwo`
(payloads at offsets 160 and 156). -/
theorem claimC3_witness :
    write gbblOne cTwo ⟨true⟩ = Except.ok (outputBytes gbblOne cTwo ⟨true⟩)
      ∧ (outputBytes gbblOne cTwo ⟨true⟩).length < 4294967296
      ∧ 0 < cTwo.levels.length ∧ 1 < cTwo.levels.length ∧ (0 : Nat) ≤ 1
      ∧ (readLEAt (outputBytes gbblOne cTwo ⟨true⟩) (80 + 24 * 0 + 8) 8
            = (cTwo.levels.getD 0 defaultLevel).levelData.length
        ∧ readLEAt (outputBytes gbblOne cTwo ⟨true⟩) (80 + 24 * 0 + 16) 8
            = (cTwo.levels.getD 0 defaultLevel).uncompressedByteLength % 2 ^ 64
        ∧ ((outputBytes gbblOne cTwo ⟨true⟩).drop
              (readLEAt (outputBytes gbblOne cTwo ⟨true⟩) (80 + 24 * 0) 8)).take
              (readLEAt (outputBytes gbblOne cTwo ⟨true⟩) (80 + 24 * 0 + 8) 8)
            = (cTwo.levels.getD 0 defaultLevel).levelData
        ∧ readLEAt (outputBytes gbblOne cTwo ⟨true⟩) (80 + 24 * 1) 8
            ≤ readLEAt (outputBytes gbblOne cTwo ⟨true⟩) (80 + 24 * 0) 8) :=
  ⟨by rfl, by decide, by decide, by decide, by decide,
    claimC3_theorem gbblOne cTwo ⟨true⟩ _ (by rfl) (by decide) 0 1 (by decide)
      (by decide) (by decide)⟩

/-- C4: the header's offset/length fields (bytes 48–79) equal the planned
layout — DFD offset = tagSize + headerSize + 24·levelCount, KVD offset =
DFD offset + emitted DFD size (= the header's DFD-length field), SGD
offset/length = 0/0 without global data and otherwise the KVD end rounded up
to the next multiple of 8 with zero padding in between — and each field
matches the Composer's actual section placement in the output buffer
(stated for outputs below 2^32 bytes, where the u32 fields cannot wrap). -/
theorem claimC4_theorem (gbbl : KTX2Container → Nat) (c : KTX2Container)
    (opts : WriteOptions) (buf : List Nat)
    (hw : write gbbl c opts = Except.ok buf)
    (hfit : buf.length < 4294967296) :
    readLEAt buf 48 4 = KTX2_ID.length + HEADER_BYTE_LENGTH + 24 * c.levels.length
      ∧ readLEAt buf 52 4 = (dfdBytesOf c).length
      ∧ readLEAt buf 56 4 = readLEAt buf 48 4 + readLEAt buf 52 4
      ∧ readLEAt buf 60 4 = (kvdBufferOf c opts).length
      ∧ (buf.drop (readLEAt buf 48 4)).take (readLEAt buf 52 4) = dfdBytesOf c
      ∧ (buf.drop (readLEAt buf 56 4)).take (readLEAt buf 60 4)
        = kvdBufferOf c opts
      ∧ (c.globalData = none → readLEAt buf 64 8 = 0 ∧ readLEAt buf 72 8 = 0)
      ∧ (c.globalData ≠ none →
          readLEAt buf 72 8 = (sgdBufferOf c).length
            ∧ readLEAt buf 64 8 % 8 = 0
            ∧ readLEAt buf 56 4 + readLEAt buf 60 4 ≤ readLEAt buf 64 8
            ∧ readLEAt buf 64 8 < readLEAt buf 56 4 + readLEAt buf 60 4 + 8
            ∧ (buf.drop (readLEAt buf 56 4 + readLEAt buf 60 4)).take
                (readLEAt buf 64 8 - (readLEAt buf 56 4 + readLEAt buf 60 4))
              = List.replicate
                  (readLEAt buf 64 8
                    - (readLEAt buf 56 4 + readLEAt buf 60 4)) 0
            ∧ (buf.drop (readLEAt buf 64 8)).take (readLEAt buf 72 8)
              = sgdBufferOf c) := by
  have hbuf := write_ok_elim _ _ _ _ hw
  subst hbuf
  obtain ⟨A, R, hsplit, hA⟩ := outputBytes_header_split gbbl c opts
  have e48 : (outputBytes gbbl c opts).drop 48
      = u32LE (dfdByteOffsetOf c) ++ (u32LE (dfdBytesOf c).length
        ++ (u32LE (kvdByteOffsetOf c opts)
          ++ (u32LE (kvdBufferOf c opts).length
            ++ (u64LE (if (sgdBufferOf c).length > 0 then
                  sgdByteOffsetOf c opts else 0)
              ++ (u64LE (sgdBufferOf c).length ++ R))))) := by
    conv_lhs => rw [hsplit]
    exact drop_append_of_len _ hA
  have e52 : (outputBytes gbbl c opts).drop 52
      = u32LE (dfdBytesOf c).length
        ++ (u32LE (kvdByteOffsetOf c opts)
          ++ (u32LE (kvdBufferOf c opts).length
            ++ (u64LE (if (sgdBufferOf c).length > 0 then
                  sgdByteOffsetOf c opts else 0)
              ++ (u64LE (sgdBufferOf c).length ++ R)))) := by
    have hd : (outputBytes gbbl c opts).drop 52
        = ((outputBytes gbbl c opts).drop 48).drop 4 := by rw [List.drop_drop]
    rw [hd, e48, drop_append_of_len _ (u32LE_length _)]
  have e56 : (outputBytes gbbl c opts).drop 56
      = u32LE (kvdByteOffsetOf c opts)
        ++ (u32LE (kvdBufferOf c opts).length
          ++ (u64LE (if (sgdBufferOf c).length > 0 then
                sgdByteOffsetOf c opts else 0)
            ++ (u64LE (sgdBufferOf c).length ++ R))) := by
    have hd : (outputBytes gbbl c opts).drop 56
        = ((outputBytes gbbl c opts).drop 52).drop 4 := by rw [List.drop_drop]
    rw [hd, e52, drop_append_of_len _ (u32LE_length _)]
  have e60 : (outputBytes gbbl c opts).drop 60
      = u32LE (kvdBufferOf c opts).length
        ++ (u64LE (if (sgdBufferOf c).length > 0 then
              sgdByteOffsetOf c opts else 0)
          ++ (u64LE (sgdBufferOf c).length ++ R)) := by
    have hd : (outputBytes gbbl c opts).drop 60
        = ((outputBytes gbbl c opts).drop 56).drop 4 := by rw [List.drop_drop]
    rw [hd, e56, drop_append_of_len _ (u32LE_length _)]
  have e64 : (outputBytes gbbl c opts).drop 64
      = u64LE (if (sgdBufferOf c).length > 0 then
            sgdByteOffsetOf c opts else 0)
        ++ (u64LE (sgdBufferOf c).length ++ R) := by
    have hd : (outputBytes gbbl c opts).drop 64
        = ((outputBytes gbbl c opts).drop 60).drop 4 := by rw [List.drop_drop]
    rw [hd, e60, drop_append_of_len _ (u32LE_length _)]
  have e72 : (outputBytes gbbl c opts).drop 72
      = u64LE (sgdBufferOf c).length ++ R := by
    have hd : (outputBytes gbbl c opts).drop 72
        = ((outputBytes gbbl c opts).drop 64).drop 8 := by rw [List.drop_drop]
    rw [hd, e64, drop_append_of_len _ (u64LE_length _)]
  have hout := outputBytes_length gbbl c opts
  obtain ⟨hl1, hl2, hl3⟩ := layout_le_start c opts
  have hkvdeq := kvdByteOffsetOf_eq c opts
  have hdfdlt : dfdByteOffsetOf c < 4294967296 := by
    rw [dfdByteOffsetOf_eq]; omega
  have hdfdlenlt : (dfdBytesOf c).length < 4294967296 := by omega
  have hkvdofflt : kvdByteOffsetOf c opts < 4294967296 := by omega
  have hkvdlenlt : (kvdBufferOf c opts).length < 4294967296 := by omega
  have r48 : readLEAt (outputBytes gbbl c opts) 48 4 = dfdByteOffsetOf c := by
    have h := readLEAt_u32 e48
    rw [h]
    exact Nat.mod_eq_of_lt hdfdlt
  have r52 : readLEAt (outputBytes gbbl c opts) 52 4
      = (dfdBytesOf c).length := by
    have h := readLEAt_u32 e52
    rw [h]
    exact Nat.mod_eq_of_lt hdfdlenlt
  have r56 : readLEAt (outputBytes gbbl c opts) 56 4
      = kvdByteOffsetOf c opts := by
    have h := readLEAt_u32 e56
    rw [h]
    exact Nat.mod_eq_of_lt hkvdofflt
  have r60 : readLEAt (outputBytes gbbl c opts) 60 4
      = (kvdBufferOf c opts).length := by
    have h := readLEAt_u32 e60
    rw [h]
    exact Nat.mod_eq_of_lt hkvdlenlt
  have r72 : readLEAt (outputBytes gbbl c opts) 72 8
      = (sgdBufferOf c).length := by
    have h := readLEAt_u64 e72
    rw [h]
    exact Nat.mod_eq_of_lt (by omega)
  refine ⟨?_, r52, ?_, r60, ?_, ?_, ?_, ?_⟩
  · rw [r48, dfdByteOffsetOf]
    have : KTX2_ID.length = 12 := rfl
    rw [HEADER_BYTE_LENGTH]
    omega
  · rw [r56, r48, r52, kvdByteOffsetOf]
  · rw [r48, r52, outputBytes_drop_dfd]
    exact take_append_of_len _ rfl
  · rw [r56, r60, outputBytes_drop_kvd]
    exact take_append_of_len _ rfl
  · intro hn
    have hsgd : sgdBufferOf c = [] := by simp [sgdBufferOf, hn]
    have r64 : readLEAt (outputBytes gbbl c opts) 64 8 = 0 := by
      have h := readLEAt_u64 e64
      rw [h, hsgd]
      rfl
    refine ⟨r64, by rw [r72, hsgd]; rfl⟩
  · intro hs
    rcases hgd : c.globalData with _ | gd
    · exact absurd hgd hs
    have hpos : 0 < (sgdBufferOf c).length := sgdBufferOf_pos c gd hgd
    obtain ⟨hp1, hp2, hp3, hp4⟩ := sgdByteOffsetOf_pos_spec c opts hpos
    have hofflt : sgdByteOffsetOf c opts < 4294967296 := by omega
    have r64 : readLEAt (outputBytes gbbl c opts) 64 8
        = sgdByteOffsetOf c opts := by
      have h := readLEAt_u64 e64
      rw [h, if_pos hpos]
      exact Nat.mod_eq_of_lt (by omega)
    have hOffPos : sgdByteOffsetOf c opts ≠ 0 := by omega
    have hpadeq : alignPadOf c opts
        = List.replicate (sgdByteOffsetOf c opts
            - (kvdByteOffsetOf c opts + (kvdBufferOf c opts).length)) 0 := by
      simp [alignPadOf, Nat.pos_of_ne_zero hOffPos]
    refine ⟨r72, ?_, ?_, ?_, ?_, ?_⟩
    · rw [r64]; exact hp2
    · rw [r64, r56, r60]; exact hp1
    · rw [r64, r56, r60]; exact hp3
    · rw [r64, r56, r60, outputBytes_drop_kvdEnd, hpadeq]
      exact take_append_of_len _ (List.length_replicate _ _)
    · rw [r64, r72, outputBytes_drop_sgd gbbl c opts hpos]
      exact take_append_of_len _ rfl

set_option maxRecDepth 8000 in
/-- C4, witness: the theorem at the concrete container with global data. -/
theorem claimC4_witness :
    write gbblOne cSgd ⟨false⟩ = Except.ok (outputBytes gbblOne cSgd ⟨false⟩)
      ∧ (outputBytes gbblOne cSgd ⟨false⟩).length < 4294967296
      ∧ (readLEAt (outputBytes gbblOne cSgd ⟨false⟩) 48 4
            = KTX2_ID.length + HEADER_BYTE_LENGTH + 24 * cSgd.levels.length
        ∧ readLEAt (outputBytes gbblOne cSgd ⟨false⟩) 52 4
            = (dfdBytesOf cSgd).length
        ∧ readLEAt (outputBytes gbblOne cSgd ⟨false⟩) 56 4
            = readLEAt (outputBytes gbblOne cSgd ⟨false⟩) 48 4
              + readLEAt (outputBytes gbblOne cSgd ⟨false⟩) 52 4
        ∧ readLEAt (outputBytes gbblOne cSgd ⟨false⟩) 60 4
            = (kvdBufferOf cSgd ⟨false⟩).length
        ∧ ((outputBytes gbblOne cSgd ⟨false⟩).drop
              (readLEAt (outputBytes gbblOne cSgd ⟨false⟩) 48 4)).take
              (readLEAt (outputBytes gbblOne cSgd ⟨false⟩) 52 4)
            = dfdBytesOf cSgd
        ∧ ((outputBytes gbblOne cSgd ⟨false⟩).drop
              (readLEAt (outputBytes gbblOne cSgd ⟨false⟩) 56 4)).take
              (readLEAt (outputBytes gbblOne cSgd ⟨false⟩) 60 4)
            = kvdBufferOf cSgd ⟨false⟩
        ∧ (cSgd.globalData = none →
            readLEAt (outputBytes gbblOne cSgd ⟨false⟩) 64 8 = 0
              ∧ readLEAt (outputBytes gbblOne cSgd ⟨false⟩) 72 8 = 0)
        ∧ (cSgd.globalData ≠ none →
            readLEAt (outputBytes gbblOne cSgd ⟨false⟩) 72 8
                = (sgdBufferOf cSgd).length
              ∧ readLEAt (outputBytes gbblOne cSgd ⟨false⟩) 64 8 % 8 = 0
              ∧ readLEAt (outputBytes gbblOne cSgd ⟨false⟩) 56 4
                  + readLEAt (outputBytes gbblOne cSgd ⟨false⟩) 60 4
                ≤ readLEAt (outputBytes gbblOne cSgd ⟨false⟩) 64 8
              ∧ readLEAt (outputBytes gbblOne cSgd ⟨false⟩) 64 8
                < readLEAt (outputBytes gbblOne cSgd ⟨false⟩) 56 4
                  + readLEAt (outputBytes gbblOne cSgd ⟨false⟩) 60 4 + 8
              ∧ ((outputBytes gbblOne cSgd ⟨false⟩).drop
                    (readLEAt (outputBytes gbblOne cSgd ⟨false⟩) 56 4
                      + readLEAt (outputBytes gbblOne cSgd ⟨false⟩) 60 4)).take
                    (readLEAt (outputBytes gbblOne cSgd ⟨false⟩) 64 8
                      - (readLEAt (outputBytes gbblOne cSgd ⟨false⟩) 56 4
                        + readLEAt (outputBytes gbblOne cSgd ⟨false⟩) 60 4))
                  = List.replicate
                      (readLEAt (outputBytes gbblOne cSgd ⟨false⟩) 64 8
                        - (readLEAt (outputBytes gbblOne cSgd ⟨false⟩) 56 4
                          + readLEAt (outputBytes gbblOne cSgd ⟨false⟩) 60 4)) 0
              ∧ ((outputBytes gbblOne cSgd ⟨false⟩).drop
                    (readLEAt (outputBytes gbblOne cSgd ⟨false⟩) 64 8)).take
                    (readLEAt (outputBytes gbblOne cSgd ⟨false⟩) 72 8)
                  = sgdBufferOf cSgd)) :=
  ⟨by rfl, by decide,
    claimC4_theorem gbblOne cSgd ⟨false⟩ _ (by rfl) (by decide)⟩

/-- C5: with scheme NONE and a positive block byte length, every level's
physical start offset is a multiple of lcm(blockByteLength, 4); with any
other scheme no level-alignment padding is inserted (the physical chunks are
exactly the payloads, reverse index order); and every serialized KVD entry,
padding included, occupies a multiple of 4 bytes. -/
theorem claimC5_theorem (gbbl : KTX2Container → Nat) (c : KTX2Container)
    (opts : WriteOptions) :
    (c.supercompressionScheme = KHR_SUPERCOMPRESSION_NONE → 0 < gbbl c →
      ∀ i, i < c.levels.length →
        (levelOffsetsOf gbbl c opts).getD i 0
            % leastCommonMultiple (gbbl c) 4 = 0)
      ∧ (c.supercompressionScheme ≠ KHR_SUPERCOMPRESSION_NONE →
          levelChunksOf gbbl c opts
            = c.levels.reverse.map (fun lv => lv.levelData))
      ∧ ∀ e : JsString × KVValue, (kvEntryBytes e).length % 4 = 0 := by
  refine ⟨?_, ?_, kvEntryBytes_length_mod_four⟩
  · intro hs hg i hi
    have hal : levelAlignOf gbbl c = leastCommonMultiple (gbbl c) 4 := by
      rw [levelAlignOf, if_pos hs]
    have hne : leastCommonMultiple (gbbl c) 4 ≠ 0 := by
      rw [leastCommonMultiple]
      exact Nat.lcm_ne_zero (by omega) (by omega)
    have hspec := (levelOffsetsOf_spec gbbl c opts i hi).2.2.2
    rw [hal] at hspec
    exact hspec hne
  · intro hs
    have hal : levelAlignOf gbbl c = 0 := by
      rw [levelAlignOf, if_neg hs]
    rw [levelChunksOf, packOf, hal]
    exact packRev_align_zero _ _

/-- C5, witness: part one at `cTwo` (scheme NONE, offsets 160/156 both
multiples of 4), part two at `cSgd` (scheme 1), part three at the injected
writer entry. -/
theorem claimC5_witness :
    (cTwo.supercompressionScheme = KHR_SUPERCOMPRESSION_NONE
        ∧ 0 < gbblOne cTwo ∧ 0 < cTwo.levels.length
        ∧ (levelOffsetsOf gbblOne cTwo ⟨true⟩).getD 0 0
            % leastCommonMultiple (gbblOne cTwo) 4 = 0)
      ∧ (cSgd.supercompressionScheme ≠ KHR_SUPERCOMPRESSION_NONE
        ∧ levelChunksOf gbblOne cSgd ⟨false⟩
          = cSgd.levels.reverse.map (fun lv => lv.levelData))
      ∧ (kvEntryBytes (ktxWriterKey, KVValue.text KTX_WRITER)).length % 4 = 0 :=
  ⟨⟨rfl, by decide, by decide,
      (claimC5_theorem gbblOne cTwo ⟨true⟩).1 rfl (by decide) 0 (by decide)⟩,
    ⟨by decide, (claimC5_theorem gbblOne cSgd ⟨false⟩).2.1 (by decide)⟩,
    (claimC5_theorem gbblOne c7 ⟨false⟩).2.2 _⟩

/-- C8: when global data is present, the SGD section of the output is exactly
the 20-byte header (two u16 counts, four u32 payload lengths, little-endian)
followed by one 20-byte record per image description, then the four payload
blobs in the order endpoints, selectors, tables, extended, with no interior
padding; even with all four blobs empty the section still holds the 20-byte
header plus the records, and is never empty. -/
theorem claimC8_theorem (gbbl : KTX2Container → Nat) (c : KTX2Container)
    (opts : WriteOptions) (buf : List Nat) (gd : KTX2GlobalData)
    (hgd : c.globalData = some gd)
    (hw : write gbbl c opts = Except.ok buf) :
    (buf.drop (sgdByteOffsetOf c opts)).take (sgdBytes gd).length = sgdBytes gd
      ∧ sgdBytes gd
        = u16LE gd.endpointCount ++ u16LE gd.selectorCount
          ++ u32LE gd.endpointsData.length ++ u32LE gd.selectorsData.length
          ++ u32LE gd.tablesData.length ++ u32LE gd.extendedData.length
          ++ (gd.imageDescs.map imageDescBytes).flatten
          ++ gd.endpointsData ++ gd.selectorsData ++ gd.tablesData
          ++ gd.extendedData
      ∧ (sgdBytes gd).length
        = 20 + 20 * gd.imageDescs.length + gd.endpointsData.length
          + gd.selectorsData.length + gd.tablesData.length
          + gd.extendedData.length
      ∧ 0 < (sgdBytes gd).length := by
  have hbuf := write_ok_elim _ _ _ _ hw
  subst hbuf
  have hsb : sgdBufferOf c = sgdBytes gd := by simp [sgdBufferOf, hgd]
  have hpos : 0 < (sgdBufferOf c).length := sgdBufferOf_pos c gd hgd
  refine ⟨?_, by simp [sgdBytes, List.append_assoc], sgdBytes_length gd, ?_⟩
  · rw [outputBytes_drop_sgd gbbl c opts hpos, hsb]
    exact take_append_of_len _ rfl
  · rw [sgdBytes_length]
    omega

/-- C8, witness: the theorem at `cSgd`, whose four payload blobs are all
empty — the section is still 40 bytes (20-byte header + one record). -/
theorem claimC8_witness :
    cSgd.globalData = some gd0
      ∧ write gbblOne cSgd ⟨false⟩
        = Except.ok (outputBytes gbblOne cSgd ⟨false⟩)
      ∧ (((outputBytes gbblOne cSgd ⟨false⟩).drop
            (sgdByteOffsetOf cSgd ⟨false⟩)).take (sgdBytes gd0).length
          = sgdBytes gd0
        ∧ sgdBytes gd0
          = u16LE gd0.endpointCount ++ u16LE gd0.selectorCount
            ++ u32LE gd0.endpointsData.length ++ u32LE gd0.selectorsData.length
            ++ u32LE gd0.tablesData.length ++ u32LE gd0.extendedData.length
            ++ (gd0.imageDescs.map imageDescBytes).flatten
            ++ gd0.endpointsData ++ gd0.selectorsData ++ gd0.tablesData
            ++ gd0.extendedData
        ∧ (sgdBytes gd0).length
          = 20 + 20 * gd0.imageDescs.length + gd0.endpointsData.length
            + gd0.selectorsData.length + gd0.tablesData.length
            + gd0.extendedData.length
        ∧ 0 < (sgdBytes gd0).length) :=
  ⟨rfl, by rfl, claimC8_theorem gbblOne cSgd ⟨false⟩ _ gd0 rfl (by rfl)⟩

/-- C10: the u64 offset field of every level-index entry equals the level's
true (untruncated) physical byte offset reduced modulo 2^32 — the value was
stored through a `Uint32Array` before being widened to 64 bits, so any
container whose level data reaches byte 2^32 gets silently truncated offsets
despite the 64-bit field. -/
theorem claimC10_theorem (gbbl : KTX2Container → Nat) (c : KTX2Container)
    (opts : WriteOptions) (buf : List Nat)
    (hw : write gbbl c opts = Except.ok buf) (i : Nat)
    (hi : i < c.levels.length) :
    readLEAt buf (80 + 24 * i) 8
      = (levelOffsetsOf gbbl c opts).getD i 0 % 4294967296 := by
  have hbuf := write_ok_elim _ _ _ _ hw
  subst hbuf
  obtain ⟨R, hR⟩ := outputBytes_levelIndex_entry gbbl c opts i hi
  have h := readLEAt_u64 hR
  rw [h]
  exact Nat.mod_eq_of_lt
    (lt_trans (Nat.mod_lt _ (by norm_num)) (by norm_num))

/-- C10, witness: at `cTwo`, level 1 (offset 156 < 2^32, so the mod is the
identity there). -/
theorem claimC10_witness :
    write gbblOne cTwo ⟨true⟩ = Except.ok (outputBytes gbblOne cTwo ⟨true⟩)
      ∧ 1 < cTwo.levels.length
      ∧ readLEAt (outputBytes gbblOne cTwo ⟨true⟩) (80 + 24 * 1) 8
        = (levelOffsetsOf gbblOne cTwo ⟨true⟩).getD 1 0 % 4294967296 :=
  ⟨by rfl, by decide,
    claimC10_theorem gbblOne cTwo ⟨true⟩ _ (by rfl) 1 (by decide)⟩

end KTX2
